import Mathlib

/-!
Shallow embedding of the `airfrog-rpc` channel protocol
(`src/channel/mod.rs`, `src/channel/sync.rs`), with the medium modelled as
the RAM backend (`RamChannelIo`): an addressable array of 32-bit words in
which a single-word read/write never fails.  The medium also records the
chronological trace of word writes, so that claims about write ordering
can be stated.  Machine integers are modelled as `Nat` with explicit
`% 2^32` at the points where the Rust code truncates or wraps.
-/

namespace Airfrog

/-- Error kinds, from `src/lib.rs` (`enum Error`). -/
inductive Error where
  | NoData
  | Busy
  | Timeout
  | InvalidOperation
  | PayloadTooLarge
  | SequenceMismatch
  | BufferTooSmall
  | Io
  | Uninit
  | NotAligned
deriving DecidableEq, Repr

/-- Role of the channel user, from `src/channel/mod.rs` (`enum ChannelActor`). -/
inductive ChannelActor where
  | Producer
  | Consumer
deriving DecidableEq, Repr

/-- Channel status flags, from `src/channel/mod.rs` (`enum ChannelFlags`, `repr(u32)`). -/
inductive ChannelFlags where
  | Ok
  | Busy
  | Error
  | Timeout
deriving DecidableEq, Repr

/-- The `u32` discriminant of each flag (`ChannelFlags as u32`). -/
def ChannelFlags.toU32 : ChannelFlags → Nat
  | .Ok => 0
  | .Busy => 1
  | .Error => 2
  | .Timeout => 3

/-- Conversion `From<u32> for ChannelFlags` in `src/channel/mod.rs`. -/
def ChannelFlags.fromU32 (value : Nat) : ChannelFlags :=
  match value with
  | 0 => ChannelFlags.Ok
  | 1 => ChannelFlags.Busy
  | 2 => ChannelFlags.Error
  | 3 => ChannelFlags.Timeout
  | _ => ChannelFlags.Error

/-- Byte offset of `channel_size` in the control block (`ChannelCb`, `repr(C)`,
five consecutive `u32` fields). -/
def channel_size_offset : Nat := 0

/-- Byte offset of `producer_seq` in the control block. -/
def producer_seq_offset : Nat := 4

/-- Byte offset of `consumer_seq` in the control block. -/
def consumer_seq_offset : Nat := 8

/-- Byte offset of `flags` in the control block. -/
def flags_offset : Nat := 12

/-- Byte offset of `data_size` in the control block. -/
def data_size_offset : Nat := 16

/-- Offset of the data region: `size_of::<ChannelCb>()` = 20 bytes. -/
def data_offset : Nat := 20

/-- Minimum legal channel size (`min_channel_size` in `src/channel/mod.rs`):
control-block size plus one word of payload. -/
def min_channel_size : Nat := data_offset + 4

/-- Helper `check_base_addr` from `src/channel/mod.rs`. -/
def check_base_addr (addr : Nat) : Except Error Unit :=
  if addr % 4 ≠ 0 then .error .NotAligned else .ok ()

/-- Helper `check_channel_size` from `src/channel/mod.rs`. -/
def check_channel_size (size : Nat) : Except Error Unit :=
  if size < min_channel_size then .error .BufferTooSmall else .ok ()

/-- Helper `consumer_only` from `src/channel/mod.rs`. -/
def consumer_only (actor : ChannelActor) : Except Error Unit :=
  if actor ≠ ChannelActor.Consumer then .error .InvalidOperation else .ok ()

/-- Helper `producer_only` from `src/channel/mod.rs`. -/
def producer_only (actor : ChannelActor) : Except Error Unit :=
  if actor ≠ ChannelActor.Producer then .error .InvalidOperation else .ok ()

/-- The shared medium (`RamChannelIo` backend): a word of memory per byte
address (only 4-aligned addresses are ever accessed), plus the
chronological trace of word writes `(address, stored value)`. -/
structure Medium where
  mem : Nat → Nat
  trace : List (Nat × Nat)

/-- Atomic word read (`RamChannelIo::read_u32`); the stored cell is a `u32`. -/
def read_u32 (s : Medium) (addr : Nat) : Nat := s.mem addr % 2 ^ 32

/-- Atomic word write (`RamChannelIo::write_u32`); stores the value truncated
to `u32` and records the write in the trace. -/
def write_u32 (s : Medium) (addr v : Nat) : Medium :=
  { mem := fun a => if a = addr then v % 2 ^ 32 else s.mem a
    trace := s.trace ++ [(addr, v % 2 ^ 32)] }

/-- Bulk write (`RamChannelIo::write_bulk`): one `write_u32` per word, at
consecutive word addresses. -/
def write_bulk : Medium → Nat → List Nat → Medium
  | s, _, [] => s
  | s, addr, w :: ws => write_bulk (write_u32 s addr w) (addr + 4) ws

/-- Bulk read (`RamChannelIo::read_bulk`): one `read_u32` per word. -/
def read_bulk (s : Medium) (addr : Nat) (count : Nat) : List Nat :=
  (List.range count).map fun i => read_u32 s (addr + i * 4)

/-- A channel handle (`Channel` in `src/channel/sync.rs`): the `ChannelIo`
capability is the explicit `Medium` threaded through each operation. -/
structure Channel where
  actor : ChannelActor
  base_addr : Nat

/-- Write of the `channel_size` field (`Channel::write_channel_size`). -/
def Channel.write_channel_size (c : Channel) (s : Medium) (size : Nat) : Medium :=
  write_u32 s (c.base_addr + channel_size_offset) size

/-- Write of the `producer_seq` field. -/
def Channel.write_producer_seq (c : Channel) (s : Medium) (seq : Nat) : Medium :=
  write_u32 s (c.base_addr + producer_seq_offset) seq

/-- Write of the `consumer_seq` field. -/
def Channel.write_consumer_seq (c : Channel) (s : Medium) (seq : Nat) : Medium :=
  write_u32 s (c.base_addr + consumer_seq_offset) seq

/-- Write of the `flags` field. -/
def Channel.write_flags (c : Channel) (s : Medium) (flags : ChannelFlags) : Medium :=
  write_u32 s (c.base_addr + flags_offset) flags.toU32

/-- Write of the `data_size` field. -/
def Channel.write_data_size (c : Channel) (s : Medium) (size : Nat) : Medium :=
  write_u32 s (c.base_addr + data_size_offset) size

/-- Read of the `channel_size` field. -/
def Channel.read_channel_size (c : Channel) (s : Medium) : Nat :=
  read_u32 s (c.base_addr + channel_size_offset)

/-- Read of the `producer_seq` field. -/
def Channel.read_producer_seq (c : Channel) (s : Medium) : Nat :=
  read_u32 s (c.base_addr + producer_seq_offset)

/-- Read of the `consumer_seq` field. -/
def Channel.read_consumer_seq (c : Channel) (s : Medium) : Nat :=
  read_u32 s (c.base_addr + consumer_seq_offset)

/-- Read of the `flags` field (`Channel::read_flags`). -/
def Channel.read_flags (c : Channel) (s : Medium) : ChannelFlags :=
  ChannelFlags.fromU32 (read_u32 s (c.base_addr + flags_offset))

/-- Read of the `data_size` field. -/
def Channel.read_data_size (c : Channel) (s : Medium) : Nat :=
  read_u32 s (c.base_addr + data_size_offset)

/-- Start address of the data region (`Channel::data_start_addr`). -/
def Channel.data_start_addr (c : Channel) : Nat :=
  c.base_addr + data_offset

/-- Payload capacity (`Channel::data_capacity`): `channel_size` read from the
medium, minus the control-block size.  In Rust this is an unsigned
subtraction; here `Nat` subtraction, which coincides whenever the caller has
validated `channel_size ≥ min_channel_size`. -/
def Channel.data_capacity (c : Channel) (s : Medium) : Nat :=
  Channel.read_channel_size c s - data_offset

/-- Idle test (`Channel::idle`): the two sequence numbers are equal. -/
def Channel.idle (c : Channel) (s : Medium) : Bool :=
  Channel.read_producer_seq c s == Channel.read_consumer_seq c s

/-- Guard `Channel::check_idle`. -/
def Channel.check_idle (c : Channel) (s : Medium) : Except Error Unit :=
  if Channel.idle c s then .ok () else .error .Busy

/-- Guard `Channel::check_busy`. -/
def Channel.check_busy (c : Channel) (s : Medium) : Except Error Unit :=
  if !Channel.idle c s then .ok () else .error .NoData

/-- Wrapping increment of `producer_seq` (`Channel::inc_producer_seq`,
using `u32::wrapping_add`). -/
def Channel.inc_producer_seq (c : Channel) (s : Medium) : Medium :=
  Channel.write_producer_seq c s ((Channel.read_producer_seq c s + 1) % 2 ^ 32)

/-- Release step `Channel::set_consumer_seq_to_producer`. -/
def Channel.set_consumer_seq_to_producer (c : Channel) (s : Medium) : Medium :=
  Channel.write_consumer_seq c s (Channel.read_producer_seq c s)

/-- Constructor `Channel::new`: validate, zero the size, initialise the
control block, then write the real size last. -/
def Channel.new (actor : ChannelActor) (base_addr : Nat) (size : Nat) (s : Medium) :
    Medium × Except Error Channel :=
  match check_base_addr base_addr with
  | .error e => (s, .error e)
  | .ok _ =>
    match check_channel_size size with
    | .error e => (s, .error e)
    | .ok _ =>
      let c : Channel := ⟨actor, base_addr⟩
      let s := Channel.write_channel_size c s 0
      let s := Channel.write_producer_seq c s 0
      let s := Channel.write_consumer_seq c s 0
      let s := Channel.write_flags c s ChannelFlags.Ok
      let s := Channel.write_data_size c s 0
      let s := Channel.write_channel_size c s size
      (s, .ok c)

/-- Constructor `Channel::from_target`: validate the base address, read the
existing `channel_size`, validate it, and reject a zero size with `Uninit`. -/
def Channel.from_target (actor : ChannelActor) (base_addr : Nat) (s : Medium) :
    Medium × Except Error Channel :=
  match check_base_addr base_addr with
  | .error e => (s, .error e)
  | .ok _ =>
    let c : Channel := ⟨actor, base_addr⟩
    let channel_size := Channel.read_channel_size c s
    match check_channel_size channel_size with
    | .error e => (s, .error e)
    | .ok _ =>
      if channel_size > 0 then (s, .ok c) else (s, .error .Uninit)

/-- Word-aligned publish `Channel::publish_data`. -/
def Channel.publish_data (c : Channel) (s : Medium) (data : List Nat) :
    Medium × Except Error Unit :=
  match producer_only c.actor with
  | .error e => (s, .error e)
  | .ok _ =>
    let byte_len := data.length * 4
    if byte_len > Channel.data_capacity c s then (s, .error .PayloadTooLarge)
    else
      match Channel.check_idle c s with
      | .error e => (s, .error e)
      | .ok _ =>
        let s := write_bulk s (Channel.data_start_addr c) data
        let s := Channel.write_data_size c s byte_len
        let s := Channel.write_flags c s ChannelFlags.Ok
        let s := Channel.inc_producer_seq c s
        (s, .ok ())

/-- Packing `u32::from_le_bytes([b0, b1, b2, b3])`. -/
def u32_from_le_bytes (b0 b1 b2 b3 : Nat) : Nat :=
  b0 + b1 * 256 + b2 * 65536 + b3 * 16777216

/-- The data-region writes performed by `Channel::publish_bytes`: the aligned
groups of 4 bytes packed little-endian into words and written individually,
then the trailing group of 1-3 bytes OR-packed into a final word. -/
def Channel.pbWriteData (c : Channel) (s : Medium) (data : List Nat) : Medium :=
  let data_addr := Channel.data_start_addr c
  let word_count := data.length / 4
  let s := (List.range word_count).foldl
    (fun s word_idx =>
      write_u32 s (data_addr + word_idx * 4)
        (u32_from_le_bytes (data.getD (word_idx * 4) 0) (data.getD (word_idx * 4 + 1) 0)
          (data.getD (word_idx * 4 + 2) 0) (data.getD (word_idx * 4 + 3) 0))) s
  let remaining := data.length % 4
  if remaining > 0 then
    write_u32 s (data_addr + word_count * 4)
      ((List.range remaining).foldl
        (fun final_word i => final_word ||| data.getD (word_count * 4 + i) 0 <<< (i * 8)) 0)
  else s

/-- Byte publish `Channel::publish_bytes`. -/
def Channel.publish_bytes (c : Channel) (s : Medium) (data : List Nat) :
    Medium × Except Error Unit :=
  match producer_only c.actor with
  | .error e => (s, .error e)
  | .ok _ =>
    if data.length > Channel.data_capacity c s then (s, .error .PayloadTooLarge)
    else
      match Channel.check_idle c s with
      | .error e => (s, .error e)
      | .ok _ =>
        let s := Channel.pbWriteData c s data
        let s := Channel.write_data_size c s data.length
        let s := Channel.write_flags c s ChannelFlags.Ok
        let s := Channel.inc_producer_seq c s
        (s, .ok ())

/-- Unpacking `u32::to_le_bytes` of a word into its four little-endian bytes. -/
def wordToLeBytes (w : Nat) : List Nat :=
  [w % 256, w / 256 % 256, w / 65536 % 256, w / 16777216 % 256]

/-- In-place ranged copy `buf[start..start + src.len()].copy_from_slice(src)`
on a list model of the caller's byte buffer. -/
def listWrite : List Nat → Nat → List Nat → List Nat
  | buf, _, [] => buf
  | [], _, _ => []
  | _ :: buf, 0, x :: src => x :: listWrite buf 0 src
  | b :: buf, n + 1, src => b :: listWrite buf n src

/-- The caller-buffer filling performed by `Channel::consume_bytes`: the
aligned words read individually and unpacked to bytes, then the final word
read and only its first `data_size % 4` bytes copied out. -/
def Channel.cbFillBuf (c : Channel) (s : Medium) (buf : List Nat) (data_size : Nat) :
    List Nat :=
  let data_addr := Channel.data_start_addr c
  let word_count := data_size / 4
  let buf := (List.range word_count).foldl
    (fun buf word_idx =>
      listWrite buf (word_idx * 4) (wordToLeBytes (read_u32 s (data_addr + word_idx * 4)))) buf
  let remaining := data_size % 4
  if remaining > 0 then
    listWrite buf (word_count * 4)
      ((wordToLeBytes (read_u32 s (data_addr + word_count * 4))).take remaining)
  else buf

/-- Byte consume `Channel::consume_bytes`.  Returns the updated caller buffer
and the consumed byte count alongside the medium. -/
def Channel.consume_bytes (c : Channel) (s : Medium) (buf : List Nat) :
    Medium × Except Error (List Nat × Nat) :=
  match consumer_only c.actor with
  | .error e => (s, .error e)
  | .ok _ =>
    match Channel.check_busy c s with
    | .error e => (s, .error e)
    | .ok _ =>
      let data_size := Channel.read_data_size c s
      if data_size > buf.length then (s, .error .BufferTooSmall)
      else if data_size > Channel.data_capacity c s then (s, .error .PayloadTooLarge)
      else
        let buf := Channel.cbFillBuf c s buf data_size
        let s := Channel.set_consumer_seq_to_producer c s
        (s, .ok (buf, data_size))

/-- Word consume `Channel::consume_data`.  Returns the updated caller buffer
and the number of full words written. -/
def Channel.consume_data (c : Channel) (s : Medium) (buf : List Nat) :
    Medium × Except Error (List Nat × Nat) :=
  match consumer_only c.actor with
  | .error e => (s, .error e)
  | .ok _ =>
    match Channel.check_busy c s with
    | .error e => (s, .error e)
    | .ok _ =>
      let byte_size := Channel.read_data_size c s
      let word_size := (byte_size + 4 - 1) / 4
      if word_size > buf.length then (s, .error .BufferTooSmall)
      else if byte_size > Channel.data_capacity c s then (s, .error .PayloadTooLarge)
      else
        let buf := listWrite buf 0 (read_bulk s (Channel.data_start_addr c) word_size)
        let s := Channel.set_consumer_seq_to_producer c s
        (s, .ok (buf, word_size))

/-- Non-mutating probe `Channel::data_available`. -/
def Channel.data_available (c : Channel) (s : Medium) : Option Nat :=
  if !Channel.idle c s then some (Channel.read_data_size c s) else none

/-- Probe `Channel::can_publish`. -/
def Channel.can_publish (c : Channel) (s : Medium) : Bool :=
  Channel.idle c s

end Airfrog

namespace Airfrog

/-! ## Basic read/write lemmas for the medium -/

theorem read_write_same (s : Medium) (a v : Nat) :
    read_u32 (write_u32 s a v) a = v % 2 ^ 32 := by
  simp [read_u32, write_u32]

theorem read_write_ne (s : Medium) (a b v : Nat) (h : a ≠ b) :
    read_u32 (write_u32 s b v) a = read_u32 s a := by
  simp [read_u32, write_u32, h]

theorem write_u32_trace (s : Medium) (a v : Nat) :
    (write_u32 s a v).trace = s.trace ++ [(a, v % 2 ^ 32)] := rfl

theorem read_u32_lt (s : Medium) (a : Nat) : read_u32 s a < 2 ^ 32 :=
  Nat.mod_lt _ (by norm_num)

/-! ## Write-loop lemmas: a fold of `write_u32` at consecutive word addresses -/

theorem foldl_write_read_notin (addr x : Nat) (V : Nat → Nat) :
    ∀ (n : Nat) (s : Medium), (∀ j, j < n → x ≠ addr + j * 4) →
      read_u32 ((List.range n).foldl (fun s j => write_u32 s (addr + j * 4) (V j)) s) x =
        read_u32 s x := by
  intro n
  induction n with
  | zero => intro s _; simp
  | succ n ih =>
    intro s hx
    rw [List.range_succ, List.foldl_append]
    simp only [List.foldl_cons, List.foldl_nil]
    rw [read_write_ne _ _ _ _ (hx n (by omega))]
    exact ih s fun j hj => hx j (by omega)

theorem foldl_write_read_hit (addr : Nat) (V : Nat → Nat) :
    ∀ (n : Nat) (s : Medium) (j : Nat), j < n →
      read_u32 ((List.range n).foldl (fun s j => write_u32 s (addr + j * 4) (V j)) s)
        (addr + j * 4) = V j % 2 ^ 32 := by
  intro n
  induction n with
  | zero => intro s j hj; omega
  | succ n ih =>
    intro s j hj
    rw [List.range_succ, List.foldl_append]
    simp only [List.foldl_cons, List.foldl_nil]
    by_cases hjn : j = n
    · subst hjn; exact read_write_same _ _ _
    · rw [read_write_ne _ _ _ _ (by omega)]
      exact ih s j (by omega)

theorem foldl_write_trace (addr : Nat) (V : Nat → Nat) :
    ∀ (n : Nat) (s : Medium),
      ((List.range n).foldl (fun s j => write_u32 s (addr + j * 4) (V j)) s).trace =
        s.trace ++ (List.range n).map (fun j => (addr + j * 4, V j % 2 ^ 32)) := by
  intro n
  induction n with
  | zero => intro s; simp
  | succ n ih =>
    intro s
    rw [List.range_succ, List.foldl_append]
    simp only [List.foldl_cons, List.foldl_nil]
    rw [write_u32_trace, ih]
    simp

/-! ## Lemmas about `write_bulk` -/

theorem write_bulk_eq_foldl :
    ∀ (data : List Nat) (s : Medium) (addr : Nat),
      write_bulk s addr data =
        (List.range data.length).foldl (fun s j => write_u32 s (addr + j * 4) (data.getD j 0)) s := by
  intro data
  induction data with
  | nil => intro s addr; simp [write_bulk]
  | cons w ws ih =>
    intro s addr
    rw [write_bulk, ih]
    have hrange : List.range (w :: ws).length = 0 :: (List.range ws.length).map (· + 1) := by
      simp [List.range_succ_eq_map]
    rw [hrange]
    simp only [List.foldl_cons, List.foldl_map]
    have : (addr + 0 * 4) = addr := by omega
    rw [this]
    congr 1
    funext s' j
    have : addr + (j + 1) * 4 = addr + 4 + j * 4 := by omega
    rw [this]
    simp

/-! ## Lemmas about `listWrite` -/

theorem listWrite_length :
    ∀ (buf : List Nat) (start : Nat) (src : List Nat),
      (listWrite buf start src).length = buf.length := by
  intro buf
  induction buf with
  | nil => intro start src; cases src <;> simp [listWrite]
  | cons b buf ih =>
    intro start src
    cases src with
    | nil => simp [listWrite]
    | cons x src =>
      cases start with
      | zero => simpa [listWrite] using ih 0 src
      | succ n => simpa [listWrite] using ih n (x :: src)

theorem listWrite_getD_lt :
    ∀ (buf : List Nat) (start : Nat) (src : List Nat) (i : Nat), i < start →
      (listWrite buf start src).getD i 0 = buf.getD i 0 := by
  intro buf
  induction buf with
  | nil => intro start src i _; cases src <;> simp [listWrite]
  | cons b buf ih =>
    intro start src i hi
    cases src with
    | nil => simp [listWrite]
    | cons x src =>
      cases start with
      | zero => omega
      | succ n =>
        cases i with
        | zero => simp [listWrite]
        | succ i => simpa [listWrite] using ih n (x :: src) i (by omega)

theorem listWrite_getD_in :
    ∀ (buf : List Nat) (start : Nat) (src : List Nat) (i : Nat),
      start ≤ i → i < start + src.length → i < buf.length →
      (listWrite buf start src).getD i 0 = src.getD (i - start) 0 := by
  intro buf
  induction buf with
  | nil => intro start src i _ _ h; simp at h
  | cons b buf ih =>
    intro start src i h1 h2 h3
    cases src with
    | nil => simp at h2; omega
    | cons x src =>
      cases start with
      | zero =>
        cases i with
        | zero => simp [listWrite]
        | succ i =>
          simp only [listWrite, List.getD_cons_succ, Nat.sub_zero]
          have := ih 0 src i (by omega) (by simp at h2 ⊢; omega) (by simp at h3 ⊢; omega)
          simpa using this
      | succ n =>
        cases i with
        | zero => omega
        | succ i =>
          simp only [listWrite, List.getD_cons_succ, Nat.succ_sub_succ]
          exact ih n (x :: src) i (by omega) (by simp at h2 ⊢; omega) (by simp at h3 ⊢; omega)

theorem listWrite_getD_ge :
    ∀ (buf : List Nat) (start : Nat) (src : List Nat) (i : Nat),
      start + src.length ≤ i →
      (listWrite buf start src).getD i 0 = buf.getD i 0 := by
  intro buf
  induction buf with
  | nil => intro start src i _; cases src <;> simp [listWrite]
  | cons b buf ih =>
    intro start src i h
    cases src with
    | nil => simp [listWrite]
    | cons x src =>
      cases start with
      | zero =>
        cases i with
        | zero => simp at h
        | succ i =>
          simp only [listWrite, List.getD_cons_succ]
          exact ih 0 src i (by simp at h ⊢; omega)
      | succ n =>
        cases i with
        | zero => simp [listWrite]
        | succ i =>
          simp only [listWrite, List.getD_cons_succ]
          exact ih n (x :: src) i (by simp at h ⊢; omega)

end Airfrog

namespace Airfrog

/-! ## Arithmetic lemmas for the little-endian word codec -/

theorem lor_shift_eq_add (a b n : Nat) (h : a < 2 ^ n) :
    a ||| b <<< n = a + b * 2 ^ n := by
  rw [Nat.shiftLeft_eq, Nat.lor_comm, Nat.mul_comm b (2 ^ n)]
  rw [← Nat.mul_add_lt_is_or h b]
  omega

theorem u32_from_le_bytes_lt (b0 b1 b2 b3 : Nat)
    (h0 : b0 < 256) (h1 : b1 < 256) (h2 : b2 < 256) (h3 : b3 < 256) :
    u32_from_le_bytes b0 b1 b2 b3 < 2 ^ 32 := by
  simp only [u32_from_le_bytes]; omega

theorem wordToLeBytes_pack (b0 b1 b2 b3 : Nat)
    (h0 : b0 < 256) (h1 : b1 < 256) (h2 : b2 < 256) (h3 : b3 < 256) :
    wordToLeBytes (u32_from_le_bytes b0 b1 b2 b3 % 2 ^ 32) = [b0, b1, b2, b3] := by
  rw [Nat.mod_eq_of_lt (u32_from_le_bytes_lt b0 b1 b2 b3 h0 h1 h2 h3)]
  simp only [wordToLeBytes, u32_from_le_bytes, List.cons.injEq, and_true]
  refine ⟨by omega, by omega, by omega, by omega⟩

theorem pack_wordToLeBytes (w : Nat) :
    u32_from_le_bytes (w % 256) (w / 256 % 256) (w / 65536 % 256) (w / 16777216 % 256) =
      w % 2 ^ 32 := by
  simp only [u32_from_le_bytes]
  omega

/-! ## Fold-of-`listWrite` lemmas for the consume-side byte loop -/

theorem foldl_listWrite_length (W : Nat → List Nat) :
    ∀ (n : Nat) (buf : List Nat),
      ((List.range n).foldl (fun buf j => listWrite buf (j * 4) (W j)) buf).length =
        buf.length := by
  intro n
  induction n with
  | zero => intro buf; simp
  | succ n ih =>
    intro buf
    rw [List.range_succ, List.foldl_append]
    simp only [List.foldl_cons, List.foldl_nil]
    rw [listWrite_length, ih]

theorem foldl_listWrite_getD_lo (W : Nat → List Nat) (hW : ∀ j, (W j).length = 4) :
    ∀ (n : Nat) (buf : List Nat) (i : Nat), i < n * 4 → n * 4 ≤ buf.length →
      ((List.range n).foldl (fun buf j => listWrite buf (j * 4) (W j)) buf).getD i 0 =
        (W (i / 4)).getD (i % 4) 0 := by
  intro n
  induction n with
  | zero => intro buf i hi _; omega
  | succ n ih =>
    intro buf i hi hlen
    rw [List.range_succ, List.foldl_append]
    simp only [List.foldl_cons, List.foldl_nil]
    by_cases hin : i < n * 4
    · rw [listWrite_getD_lt _ _ _ _ (by omega)]
      exact ih buf i hin (by omega)
    · have h1 : n * 4 ≤ i := by omega
      have h2 : i < n * 4 + (W n).length := by rw [hW n]; omega
      have h3 : i < ((List.range n).foldl (fun buf j => listWrite buf (j * 4) (W j)) buf).length := by
        rw [foldl_listWrite_length]; omega
      rw [listWrite_getD_in _ _ _ _ h1 h2 h3]
      have hdiv : i / 4 = n := by omega
      have hmod : i % 4 = i - n * 4 := by omega
      rw [hdiv, hmod]

theorem foldl_listWrite_getD_hi (W : Nat → List Nat) (hW : ∀ j, (W j).length = 4) :
    ∀ (n : Nat) (buf : List Nat) (i : Nat), n * 4 ≤ i →
      ((List.range n).foldl (fun buf j => listWrite buf (j * 4) (W j)) buf).getD i 0 =
        buf.getD i 0 := by
  intro n
  induction n with
  | zero => intro buf i _; simp
  | succ n ih =>
    intro buf i hi
    rw [List.range_succ, List.foldl_append]
    simp only [List.foldl_cons, List.foldl_nil]
    rw [listWrite_getD_ge _ _ _ _ (by rw [hW n]; omega)]
    exact ih buf i (by omega)

end Airfrog

namespace Airfrog

/-! ## Reads across single control-block field writes -/

theorem read_write_channel_size_ne (c : Channel) (s : Medium) (v x : Nat)
    (h : x ≠ c.base_addr + channel_size_offset) :
    read_u32 (Channel.write_channel_size c s v) x = read_u32 s x :=
  read_write_ne _ _ _ _ h

theorem read_write_producer_seq_ne (c : Channel) (s : Medium) (v x : Nat)
    (h : x ≠ c.base_addr + producer_seq_offset) :
    read_u32 (Channel.write_producer_seq c s v) x = read_u32 s x :=
  read_write_ne _ _ _ _ h

theorem read_write_consumer_seq_ne (c : Channel) (s : Medium) (v x : Nat)
    (h : x ≠ c.base_addr + consumer_seq_offset) :
    read_u32 (Channel.write_consumer_seq c s v) x = read_u32 s x :=
  read_write_ne _ _ _ _ h

theorem read_write_flags_ne (c : Channel) (s : Medium) (f : ChannelFlags) (x : Nat)
    (h : x ≠ c.base_addr + flags_offset) :
    read_u32 (Channel.write_flags c s f) x = read_u32 s x :=
  read_write_ne _ _ _ _ h

theorem read_write_data_size_ne (c : Channel) (s : Medium) (v x : Nat)
    (h : x ≠ c.base_addr + data_size_offset) :
    read_u32 (Channel.write_data_size c s v) x = read_u32 s x :=
  read_write_ne _ _ _ _ h

theorem read_inc_producer_seq_ne (c : Channel) (s : Medium) (x : Nat)
    (h : x ≠ c.base_addr + producer_seq_offset) :
    read_u32 (Channel.inc_producer_seq c s) x = read_u32 s x :=
  read_write_ne _ _ _ _ h

theorem read_set_consumer_seq_ne (c : Channel) (s : Medium) (x : Nat)
    (h : x ≠ c.base_addr + consumer_seq_offset) :
    read_u32 (Channel.set_consumer_seq_to_producer c s) x = read_u32 s x :=
  read_write_ne _ _ _ _ h

theorem read_producer_seq_inc (c : Channel) (s : Medium) :
    Channel.read_producer_seq c (Channel.inc_producer_seq c s) =
      (Channel.read_producer_seq c s + 1) % 2 ^ 32 := by
  simp only [Channel.read_producer_seq, Channel.inc_producer_seq, Channel.write_producer_seq]
  rw [read_write_same]
  omega

theorem read_consumer_seq_set (c : Channel) (s : Medium) :
    Channel.read_consumer_seq c (Channel.set_consumer_seq_to_producer c s) =
      Channel.read_producer_seq c s := by
  simp only [Channel.read_consumer_seq, Channel.set_consumer_seq_to_producer,
    Channel.write_consumer_seq, Channel.read_producer_seq]
  rw [read_write_same]
  have := read_u32_lt s (c.base_addr + producer_seq_offset)
  omega

theorem read_data_size_write (c : Channel) (s : Medium) (v : Nat) :
    Channel.read_data_size c (Channel.write_data_size c s v) = v % 2 ^ 32 := by
  unfold Channel.read_data_size Channel.write_data_size
  rw [read_write_same]

/-! ## Characterisation of the data-region writes of `publish_bytes` -/

theorem pbWriteData_read_notdata (c : Channel) (s : Medium) (data : List Nat) (x : Nat)
    (hx : x < Channel.data_start_addr c) :
    read_u32 (Channel.pbWriteData c s data) x = read_u32 s x := by
  simp only [Channel.pbWriteData]
  by_cases hrem : data.length % 4 > 0
  · rw [if_pos hrem, read_write_ne _ _ _ _ (by omega)]
    exact foldl_write_read_notin _ x _ _ s fun j hj => by omega
  · rw [if_neg hrem]
    exact foldl_write_read_notin _ x _ _ s fun j hj => by omega

theorem pbWriteData_read_word (c : Channel) (s : Medium) (data : List Nat) (j : Nat)
    (hj : j < data.length / 4) :
    read_u32 (Channel.pbWriteData c s data) (Channel.data_start_addr c + j * 4) =
      u32_from_le_bytes (data.getD (j * 4) 0) (data.getD (j * 4 + 1) 0)
        (data.getD (j * 4 + 2) 0) (data.getD (j * 4 + 3) 0) % 2 ^ 32 := by
  simp only [Channel.pbWriteData]
  by_cases hrem : data.length % 4 > 0
  · rw [if_pos hrem, read_write_ne _ _ _ _ (by omega)]
    exact foldl_write_read_hit _ _ _ s j hj
  · rw [if_neg hrem]
    exact foldl_write_read_hit _ _ _ s j hj

theorem pbWriteData_read_rem (c : Channel) (s : Medium) (data : List Nat)
    (hrem : data.length % 4 > 0) :
    read_u32 (Channel.pbWriteData c s data) (Channel.data_start_addr c + data.length / 4 * 4) =
      ((List.range (data.length % 4)).foldl
        (fun final_word i => final_word ||| data.getD (data.length / 4 * 4 + i) 0 <<< (i * 8))
        0) % 2 ^ 32 := by
  simp only [Channel.pbWriteData]
  rw [if_pos hrem, read_write_same]

theorem pbWriteData_trace (c : Channel) (s : Medium) (data : List Nat) :
    (Channel.pbWriteData c s data).trace =
      s.trace ++
        ((List.range (data.length / 4)).map fun j =>
          (Channel.data_start_addr c + j * 4,
            u32_from_le_bytes (data.getD (j * 4) 0) (data.getD (j * 4 + 1) 0)
              (data.getD (j * 4 + 2) 0) (data.getD (j * 4 + 3) 0) % 2 ^ 32)) ++
        (if data.length % 4 > 0 then
          [(Channel.data_start_addr c + data.length / 4 * 4,
            ((List.range (data.length % 4)).foldl
              (fun final_word i =>
                final_word ||| data.getD (data.length / 4 * 4 + i) 0 <<< (i * 8)) 0) % 2 ^ 32)]
        else []) := by
  simp only [Channel.pbWriteData]
  by_cases hrem : data.length % 4 > 0
  · rw [if_pos hrem, if_pos hrem, write_u32_trace, foldl_write_trace, List.append_assoc]
  · rw [if_neg hrem, if_neg hrem, foldl_write_trace]
    simp

end Airfrog

namespace Airfrog

theorem off_ne {b o₁ o₂ : Nat} (h : o₁ ≠ o₂) : b + o₁ ≠ b + o₂ := by omega

/-! ## Success-path equations for the protocol operations -/

theorem publish_bytes_ok_eq (c : Channel) (s : Medium) (data : List Nat)
    (ha : c.actor = ChannelActor.Producer)
    (hcap : data.length ≤ Channel.data_capacity c s)
    (hidle : Channel.idle c s = true) :
    Channel.publish_bytes c s data =
      (Channel.inc_producer_seq c (Channel.write_flags c
        (Channel.write_data_size c (Channel.pbWriteData c s data) data.length)
        ChannelFlags.Ok), .ok ()) := by
  unfold Channel.publish_bytes
  rw [ha]
  simp [producer_only, Channel.check_idle, hidle, Nat.not_lt.mpr hcap]

theorem publish_data_ok_eq (c : Channel) (s : Medium) (data : List Nat)
    (ha : c.actor = ChannelActor.Producer)
    (hcap : data.length * 4 ≤ Channel.data_capacity c s)
    (hidle : Channel.idle c s = true) :
    Channel.publish_data c s data =
      (Channel.inc_producer_seq c (Channel.write_flags c
        (Channel.write_data_size c (write_bulk s (Channel.data_start_addr c) data)
          (data.length * 4))
        ChannelFlags.Ok), .ok ()) := by
  unfold Channel.publish_data
  rw [ha]
  simp [producer_only, Channel.check_idle, hidle, Nat.not_lt.mpr hcap]

theorem consume_bytes_ok_eq (c : Channel) (s : Medium) (buf : List Nat)
    (ha : c.actor = ChannelActor.Consumer)
    (hbusy : Channel.idle c s = false)
    (hbuf : Channel.read_data_size c s ≤ buf.length)
    (hcap : Channel.read_data_size c s ≤ Channel.data_capacity c s) :
    Channel.consume_bytes c s buf =
      (Channel.set_consumer_seq_to_producer c s,
        .ok (Channel.cbFillBuf c s buf (Channel.read_data_size c s),
          Channel.read_data_size c s)) := by
  unfold Channel.consume_bytes
  rw [ha]
  simp [consumer_only, Channel.check_busy, hbusy, Nat.not_lt.mpr hbuf, Nat.not_lt.mpr hcap]

/-! ## Control-block fields after a successful byte publish -/

theorem post_publish_read_producer_seq (c : Channel) (s : Medium) (data : List Nat) :
    Channel.read_producer_seq c (Channel.inc_producer_seq c (Channel.write_flags c
      (Channel.write_data_size c (Channel.pbWriteData c s data) data.length)
      ChannelFlags.Ok)) = (Channel.read_producer_seq c s + 1) % 2 ^ 32 := by
  rw [read_producer_seq_inc]
  unfold Channel.read_producer_seq
  rw [read_write_flags_ne _ _ _ _ (off_ne (by decide)),
    read_write_data_size_ne _ _ _ _ (off_ne (by decide)),
    pbWriteData_read_notdata _ _ _ _ (by unfold Channel.data_start_addr; simp [producer_seq_offset, data_offset])]

theorem post_publish_read_consumer_seq (c : Channel) (s : Medium) (data : List Nat) :
    Channel.read_consumer_seq c (Channel.inc_producer_seq c (Channel.write_flags c
      (Channel.write_data_size c (Channel.pbWriteData c s data) data.length)
      ChannelFlags.Ok)) = Channel.read_consumer_seq c s := by
  unfold Channel.read_consumer_seq
  rw [read_inc_producer_seq_ne _ _ _ (off_ne (by decide)),
    read_write_flags_ne _ _ _ _ (off_ne (by decide)),
    read_write_data_size_ne _ _ _ _ (off_ne (by decide)),
    pbWriteData_read_notdata _ _ _ _ (by unfold Channel.data_start_addr; simp [consumer_seq_offset, data_offset])]

theorem post_publish_read_channel_size (c : Channel) (s : Medium) (data : List Nat) :
    Channel.read_channel_size c (Channel.inc_producer_seq c (Channel.write_flags c
      (Channel.write_data_size c (Channel.pbWriteData c s data) data.length)
      ChannelFlags.Ok)) = Channel.read_channel_size c s := by
  unfold Channel.read_channel_size
  rw [read_inc_producer_seq_ne _ _ _ (off_ne (by decide)),
    read_write_flags_ne _ _ _ _ (off_ne (by decide)),
    read_write_data_size_ne _ _ _ _ (off_ne (by decide)),
    pbWriteData_read_notdata _ _ _ _ (by unfold Channel.data_start_addr; simp [channel_size_offset, data_offset])]

theorem post_publish_read_data_size (c : Channel) (s : Medium) (data : List Nat) :
    Channel.read_data_size c (Channel.inc_producer_seq c (Channel.write_flags c
      (Channel.write_data_size c (Channel.pbWriteData c s data) data.length)
      ChannelFlags.Ok)) = data.length % 2 ^ 32 := by
  unfold Channel.read_data_size
  rw [read_inc_producer_seq_ne _ _ _ (off_ne (by decide)),
    read_write_flags_ne _ _ _ _ (off_ne (by decide))]
  exact read_data_size_write c _ data.length

theorem post_publish_read_dataword (c : Channel) (s : Medium) (data : List Nat) (x : Nat)
    (hx : Channel.data_start_addr c ≤ x) :
    read_u32 (Channel.inc_producer_seq c (Channel.write_flags c
      (Channel.write_data_size c (Channel.pbWriteData c s data) data.length)
      ChannelFlags.Ok)) x = read_u32 (Channel.pbWriteData c s data) x := by
  have hd : Channel.data_start_addr c = c.base_addr + 20 := by
    unfold Channel.data_start_addr; simp [data_offset]
  rw [read_inc_producer_seq_ne _ _ _ (by simp [producer_seq_offset]; omega),
    read_write_flags_ne _ _ _ _ (by simp [flags_offset]; omega),
    read_write_data_size_ne _ _ _ _ (by simp [data_size_offset]; omega)]

theorem post_publish_idle_false (c : Channel) (s : Medium) (data : List Nat)
    (hidle : Channel.idle c s = true) :
    Channel.idle c (Channel.inc_producer_seq c (Channel.write_flags c
      (Channel.write_data_size c (Channel.pbWriteData c s data) data.length)
      ChannelFlags.Ok)) = false := by
  unfold Channel.idle at hidle ⊢
  rw [post_publish_read_producer_seq, post_publish_read_consumer_seq]
  have hq : Channel.read_producer_seq c s = Channel.read_consumer_seq c s := by
    simpa using hidle
  have hlt : Channel.read_producer_seq c s < 2 ^ 32 := read_u32_lt s _
  simp only [beq_eq_false_iff_ne, ne_eq]
  omega

end Airfrog

namespace Airfrog

/-! ## Concrete media used by witnesses -/

/-- A medium whose every word reads as zero (fresh, uninitialised RAM). -/
def zeroMedium : Medium := ⟨fun _ => 0, []⟩

/-- An idle 32-byte channel at base 0: `channel_size = 32`, both sequence
numbers 0, capacity 12. -/
def idleMedium : Medium := ⟨fun a => if a = 0 then 32 else 0, []⟩

/-- A busy 32-byte channel at base 0: `producer_seq = 1`, `consumer_seq = 0`,
`data_size = 5`. -/
def busyMedium : Medium :=
  ⟨fun a => if a = 0 then 32 else if a = 4 then 1 else if a = 16 then 5 else 0, []⟩

/-- A busy 32-byte channel whose `data_size = 13` exceeds the capacity 12. -/
def overMedium : Medium :=
  ⟨fun a => if a = 0 then 32 else if a = 4 then 1 else if a = 16 then 13 else 0, []⟩

/-! ## C1 -/

/-- C1: the claim says attaching with `from_target` to an aligned region whose
`channel_size` word reads as zero fails with `Uninit`.  The code instead
fails with `BufferTooSmall`: `check_channel_size` runs before the zero test,
and `0 < min_channel_size`, so the `Uninit` branch is unreachable.  This
theorem proves the actual behaviour at every such input. -/
theorem C1_attach_zero_size_gives_buffer_too_small (actor : ChannelActor) (base : Nat)
    (s : Medium) (halign : base % 4 = 0)
    (hzero : Channel.read_channel_size ⟨actor, base⟩ s = 0) :
    Channel.from_target actor base s = (s, Except.error Error.BufferTooSmall) := by
  unfold Channel.from_target
  simp [check_base_addr, halign, check_channel_size, hzero, min_channel_size, data_offset]

/-- C1 witness: concrete evaluation on all-zero RAM at base 0. -/
theorem C1_attach_zero_size_gives_buffer_too_small_witness :
    Channel.from_target ChannelActor.Consumer 0 zeroMedium =
      (zeroMedium, Except.error Error.BufferTooSmall) :=
  C1_attach_zero_size_gives_buffer_too_small ChannelActor.Consumer 0 zeroMedium
    (by decide) (by decide)

/-! ## C3 -/

/-- C3: a byte payload longer than the capacity makes `publish_bytes` fail
with `PayloadTooLarge`, and a word payload with `word_count * 4` above the
capacity makes `publish_data` fail with `PayloadTooLarge`; in both cases the
medium is returned unchanged (same memory, same write trace), so the control
block and data region are untouched. -/
theorem C3_payload_too_large_no_write (c : Channel) (s : Medium) (bytes words : List Nat)
    (ha : c.actor = ChannelActor.Producer)
    (hb : Channel.data_capacity c s < bytes.length)
    (hw : Channel.data_capacity c s < words.length * 4) :
    Channel.publish_bytes c s bytes = (s, Except.error Error.PayloadTooLarge) ∧
    Channel.publish_data c s words = (s, Except.error Error.PayloadTooLarge) := by
  constructor
  · unfold Channel.publish_bytes
    rw [ha]
    simp [producer_only, hb]
  · unfold Channel.publish_data
    rw [ha]
    simp [producer_only, hw]

/-- C3 witness: capacity is 12 on a 32-byte channel; a 13-byte payload and a
4-word (16-byte) payload are both rejected without any write. -/
theorem C3_payload_too_large_no_write_witness :
    Channel.publish_bytes ⟨ChannelActor.Producer, 0⟩ idleMedium (List.replicate 13 0) =
      (idleMedium, Except.error Error.PayloadTooLarge) ∧
    Channel.publish_data ⟨ChannelActor.Producer, 0⟩ idleMedium (List.replicate 4 0) =
      (idleMedium, Except.error Error.PayloadTooLarge) :=
  C3_payload_too_large_no_write ⟨ChannelActor.Producer, 0⟩ idleMedium
    (List.replicate 13 0) (List.replicate 4 0) rfl (by decide) (by decide)

/-! ## C9 -/

/-- C9: once the `channel_size` word read from the medium has been validated
against the minimum channel size (header + 4 = 24), `data_capacity` computes
exactly `channel_size - 20` and the unsigned subtraction cannot underflow
(the mathematical difference is the Nat result and is non-negative); without
that validation, a `channel_size` below the 20-byte header makes the
mathematical difference negative, i.e. the subtraction underflows. -/
theorem C9_data_capacity_no_underflow (c : Channel) (s : Medium) :
    (min_channel_size ≤ Channel.read_channel_size c s →
      data_offset ≤ Channel.read_channel_size c s ∧
      (Channel.data_capacity c s : Int) =
        (Channel.read_channel_size c s : Int) - (data_offset : Int)) ∧
    (Channel.read_channel_size c s < data_offset →
      (Channel.read_channel_size c s : Int) - (data_offset : Int) < 0) := by
  unfold Channel.data_capacity min_channel_size data_offset
  constructor
  · intro h
    constructor
    · omega
    · omega
  · intro h
    omega

/-- C9 witness: `channel_size = 32` gives capacity 12 with no underflow;
`channel_size = 0` makes the difference negative. -/
theorem C9_data_capacity_no_underflow_witness :
    (data_offset ≤ Channel.read_channel_size ⟨ChannelActor.Producer, 0⟩ idleMedium ∧
      (Channel.data_capacity ⟨ChannelActor.Producer, 0⟩ idleMedium : Int) =
        (Channel.read_channel_size ⟨ChannelActor.Producer, 0⟩ idleMedium : Int) -
          (data_offset : Int)) ∧
    ((Channel.read_channel_size ⟨ChannelActor.Producer, 0⟩ zeroMedium : Int) -
      (data_offset : Int) < 0) :=
  ⟨(C9_data_capacity_no_underflow ⟨ChannelActor.Producer, 0⟩ idleMedium).1 (by decide),
   (C9_data_capacity_no_underflow ⟨ChannelActor.Producer, 0⟩ zeroMedium).2 (by decide)⟩

/-! ## C10 -/

/-- C10: on a busy channel, a consume that fails because the destination
buffer is smaller than the stored `data_size` (`BufferTooSmall`) or because
`data_size` exceeds the capacity (`PayloadTooLarge`) returns the medium
completely unchanged (memory and write trace), for both `consume_bytes` and
`consume_data`; and from that same unchanged state a `consume_bytes` with an
adequate buffer succeeds and drains the payload. -/
theorem C10_consume_error_atomic (c : Channel) (s : Medium) (buf buf2 bufBig : List Nat)
    (ha : c.actor = ChannelActor.Consumer)
    (hbusy : Channel.idle c s = false) :
    (buf.length < Channel.read_data_size c s →
      Channel.consume_bytes c s buf = (s, Except.error Error.BufferTooSmall)) ∧
    (Channel.read_data_size c s ≤ buf2.length →
      Channel.data_capacity c s < Channel.read_data_size c s →
      Channel.consume_bytes c s buf2 = (s, Except.error Error.PayloadTooLarge)) ∧
    (buf.length < (Channel.read_data_size c s + 4 - 1) / 4 →
      Channel.consume_data c s buf = (s, Except.error Error.BufferTooSmall)) ∧
    ((Channel.read_data_size c s + 4 - 1) / 4 ≤ buf2.length →
      Channel.data_capacity c s < Channel.read_data_size c s →
      Channel.consume_data c s buf2 = (s, Except.error Error.PayloadTooLarge)) ∧
    (Channel.read_data_size c s ≤ bufBig.length →
      Channel.read_data_size c s ≤ Channel.data_capacity c s →
      Channel.consume_bytes c s bufBig =
        (Channel.set_consumer_seq_to_producer c s,
          Except.ok (Channel.cbFillBuf c s bufBig (Channel.read_data_size c s),
            Channel.read_data_size c s))) := by
  refine ⟨?_, ?_, ?_, ?_, ?_⟩
  · intro hsmall
    unfold Channel.consume_bytes
    rw [ha]
    simp [consumer_only, Channel.check_busy, hbusy, hsmall]
  · intro hfit hover
    unfold Channel.consume_bytes
    rw [ha]
    simp [consumer_only, Channel.check_busy, hbusy, Nat.not_lt.mpr hfit, hover]
  · intro hsmall
    unfold Channel.consume_data
    rw [ha]
    have hsmall3 : buf.length < (Channel.read_data_size c s + 3) / 4 := by omega
    simp [consumer_only, Channel.check_busy, hbusy, hsmall3]
  · intro hfit hover
    unfold Channel.consume_data
    rw [ha]
    have hfit3 : (Channel.read_data_size c s + 3) / 4 ≤ buf2.length := by omega
    simp [consumer_only, Channel.check_busy, hbusy, Nat.not_lt.mpr hfit3, hover]
  · intro hfit hcap
    exact consume_bytes_ok_eq c s bufBig ha hbusy hfit hcap

/-- C10 witness: with `data_size = 5` and capacity 12, a 3-byte buffer and an
empty word buffer fail with `BufferTooSmall`; with `data_size = 13` above
capacity, adequate buffers fail with `PayloadTooLarge`; the unchanged busy
state with `data_size = 5` is then drained by a 5-byte buffer. -/
theorem C10_consume_error_atomic_witness :
    Channel.consume_bytes ⟨ChannelActor.Consumer, 0⟩ busyMedium [0, 0, 0] =
      (busyMedium, Except.error Error.BufferTooSmall) ∧
    Channel.consume_data ⟨ChannelActor.Consumer, 0⟩ busyMedium [] =
      (busyMedium, Except.error Error.BufferTooSmall) ∧
    Channel.consume_bytes ⟨ChannelActor.Consumer, 0⟩ overMedium (List.replicate 13 0) =
      (overMedium, Except.error Error.PayloadTooLarge) ∧
    Channel.consume_data ⟨ChannelActor.Consumer, 0⟩ overMedium (List.replicate 4 0) =
      (overMedium, Except.error Error.PayloadTooLarge) ∧
    Channel.consume_bytes ⟨ChannelActor.Consumer, 0⟩ busyMedium (List.replicate 5 0) =
      (Channel.set_consumer_seq_to_producer ⟨ChannelActor.Consumer, 0⟩ busyMedium,
        Except.ok (Channel.cbFillBuf ⟨ChannelActor.Consumer, 0⟩ busyMedium
          (List.replicate 5 0) (Channel.read_data_size ⟨ChannelActor.Consumer, 0⟩ busyMedium),
          Channel.read_data_size ⟨ChannelActor.Consumer, 0⟩ busyMedium)) := by
  refine ⟨?_, ?_, ?_, ?_, ?_⟩
  · exact (C10_consume_error_atomic ⟨ChannelActor.Consumer, 0⟩ busyMedium [0, 0, 0] [] []
      rfl (by decide)).1 (by decide)
  · exact (C10_consume_error_atomic ⟨ChannelActor.Consumer, 0⟩ busyMedium [] [] []
      rfl (by decide)).2.2.1 (by decide)
  · exact (C10_consume_error_atomic ⟨ChannelActor.Consumer, 0⟩ overMedium []
      (List.replicate 13 0) [] rfl (by decide)).2.1 (by decide) (by decide)
  · exact (C10_consume_error_atomic ⟨ChannelActor.Consumer, 0⟩ overMedium []
      (List.replicate 4 0) [] rfl (by decide)).2.2.2.1 (by decide) (by decide)
  · exact (C10_consume_error_atomic ⟨ChannelActor.Consumer, 0⟩ busyMedium [] []
      (List.replicate 5 0) rfl (by decide)).2.2.2.2 (by decide) (by decide)

end Airfrog

namespace Airfrog

/-! ## The medium state produced by a successful `Channel::new` -/

/-- Medium after a successful `Channel::new`: `channel_size` zeroed first,
the control block initialised, the real size written last. -/
def newMedium (c : Channel) (s : Medium) (size : Nat) : Medium :=
  Channel.write_channel_size c
    (Channel.write_data_size c
      (Channel.write_flags c
        (Channel.write_consumer_seq c
          (Channel.write_producer_seq c (Channel.write_channel_size c s 0) 0) 0)
        ChannelFlags.Ok)
      0)
    size

theorem new_ok_eq (actor : ChannelActor) (base size : Nat) (s : Medium)
    (halign : base % 4 = 0) (hmin : min_channel_size ≤ size) :
    Channel.new actor base size s = (newMedium ⟨actor, base⟩ s size, .ok ⟨actor, base⟩) := by
  unfold Channel.new newMedium
  simp [check_base_addr, halign, check_channel_size, Nat.not_lt.mpr hmin]

theorem newMedium_read_channel_size (c : Channel) (s : Medium) (size : Nat) :
    Channel.read_channel_size c (newMedium c s size) = size % 2 ^ 32 := by
  unfold newMedium Channel.read_channel_size Channel.write_channel_size
  rw [read_write_same]

theorem newMedium_read_producer_seq (c : Channel) (s : Medium) (size : Nat) :
    Channel.read_producer_seq c (newMedium c s size) = 0 := by
  unfold newMedium Channel.read_producer_seq
  rw [read_write_channel_size_ne _ _ _ _ (off_ne (by decide)),
    read_write_data_size_ne _ _ _ _ (off_ne (by decide)),
    read_write_flags_ne _ _ _ _ (off_ne (by decide)),
    read_write_consumer_seq_ne _ _ _ _ (off_ne (by decide))]
  unfold Channel.write_producer_seq
  rw [read_write_same]
  decide

theorem newMedium_read_consumer_seq (c : Channel) (s : Medium) (size : Nat) :
    Channel.read_consumer_seq c (newMedium c s size) = 0 := by
  unfold newMedium Channel.read_consumer_seq
  rw [read_write_channel_size_ne _ _ _ _ (off_ne (by decide)),
    read_write_data_size_ne _ _ _ _ (off_ne (by decide)),
    read_write_flags_ne _ _ _ _ (off_ne (by decide))]
  unfold Channel.write_consumer_seq
  rw [read_write_same]
  decide

theorem newMedium_read_flags (c : Channel) (s : Medium) (size : Nat) :
    Channel.read_flags c (newMedium c s size) = ChannelFlags.Ok := by
  unfold newMedium Channel.read_flags
  rw [read_write_channel_size_ne _ _ _ _ (off_ne (by decide)),
    read_write_data_size_ne _ _ _ _ (off_ne (by decide))]
  unfold Channel.write_flags
  rw [read_write_same]
  simp [ChannelFlags.toU32, ChannelFlags.fromU32]

theorem newMedium_read_data_size (c : Channel) (s : Medium) (size : Nat) :
    Channel.read_data_size c (newMedium c s size) = 0 := by
  unfold newMedium Channel.read_data_size
  rw [read_write_channel_size_ne _ _ _ _ (off_ne (by decide))]
  unfold Channel.write_data_size
  rw [read_write_same]
  decide

theorem newMedium_trace (c : Channel) (s : Medium) (size : Nat) :
    (newMedium c s size).trace = s.trace ++
      [(c.base_addr + channel_size_offset, 0), (c.base_addr + producer_seq_offset, 0),
       (c.base_addr + consumer_seq_offset, 0),
       (c.base_addr + flags_offset, ChannelFlags.Ok.toU32),
       (c.base_addr + data_size_offset, 0),
       (c.base_addr + channel_size_offset, size % 2 ^ 32)] := by
  unfold newMedium Channel.write_channel_size Channel.write_data_size Channel.write_flags
    Channel.write_consumer_seq Channel.write_producer_seq
  simp [write_u32_trace, ChannelFlags.toU32]

/-! ## C5 -/

/-- C5: for every 4-byte-aligned base address and every representable size of
at least the 24-byte minimum, `new` succeeds and leaves the medium with
`producer_seq = 0`, `consumer_seq = 0`, `flags = Ok`, `data_size = 0` and
`channel_size = size`, with the writes in exactly the order: size zeroed
first, then the four control fields, then the real size last (the trace
equation); an immediately following `from_target` succeeds and observes the
same size and an idle channel. -/
theorem C5_create_then_attach (actor attachActor : ChannelActor) (base size : Nat)
    (s : Medium) (halign : base % 4 = 0) (hmin : min_channel_size ≤ size)
    (hsize : size < 2 ^ 32) :
    ∃ s₁, Channel.new actor base size s = (s₁, Except.ok ⟨actor, base⟩) ∧
      Channel.read_producer_seq ⟨actor, base⟩ s₁ = 0 ∧
      Channel.read_consumer_seq ⟨actor, base⟩ s₁ = 0 ∧
      Channel.read_flags ⟨actor, base⟩ s₁ = ChannelFlags.Ok ∧
      Channel.read_data_size ⟨actor, base⟩ s₁ = 0 ∧
      Channel.read_channel_size ⟨actor, base⟩ s₁ = size ∧
      s₁.trace = s.trace ++
        [(base + channel_size_offset, 0), (base + producer_seq_offset, 0),
         (base + consumer_seq_offset, 0), (base + flags_offset, ChannelFlags.Ok.toU32),
         (base + data_size_offset, 0), (base + channel_size_offset, size)] ∧
      Channel.from_target attachActor base s₁ = (s₁, Except.ok ⟨attachActor, base⟩) ∧
      Channel.read_channel_size ⟨attachActor, base⟩ s₁ = size ∧
      Channel.idle ⟨attachActor, base⟩ s₁ = true := by
  have hsz : size % 2 ^ 32 = size := Nat.mod_eq_of_lt hsize
  have hcs : Channel.read_channel_size (⟨actor, base⟩ : Channel) (newMedium ⟨actor, base⟩ s size) = size := by
    rw [newMedium_read_channel_size, hsz]
  refine ⟨newMedium ⟨actor, base⟩ s size, new_ok_eq actor base size s halign hmin,
    newMedium_read_producer_seq _ _ _, newMedium_read_consumer_seq _ _ _,
    newMedium_read_flags _ _ _, newMedium_read_data_size _ _ _, hcs, ?_, ?_, ?_, ?_⟩
  · rw [newMedium_trace, hsz]
  · unfold Channel.from_target
    have hcs2 : Channel.read_channel_size (⟨attachActor, base⟩ : Channel)
        (newMedium ⟨actor, base⟩ s size) = size := hcs
    simp [check_base_addr, halign, hcs2, check_channel_size, Nat.not_lt.mpr hmin]
    unfold min_channel_size data_offset at hmin
    omega
  · exact hcs
  · have hp : Channel.read_producer_seq (⟨attachActor, base⟩ : Channel)
        (newMedium ⟨actor, base⟩ s size) = 0 := newMedium_read_producer_seq ⟨actor, base⟩ s size
    have hq : Channel.read_consumer_seq (⟨attachActor, base⟩ : Channel)
        (newMedium ⟨actor, base⟩ s size) = 0 := newMedium_read_consumer_seq ⟨actor, base⟩ s size
    unfold Channel.idle
    rw [hp, hq]
    decide

/-- C5 witness: creating a 32-byte channel at base 0 over fresh RAM and
attaching to it. -/
theorem C5_create_then_attach_witness :
    ∃ s₁, Channel.new ChannelActor.Producer 0 32 zeroMedium =
        (s₁, Except.ok ⟨ChannelActor.Producer, 0⟩) ∧
      Channel.read_producer_seq ⟨ChannelActor.Producer, 0⟩ s₁ = 0 ∧
      Channel.read_consumer_seq ⟨ChannelActor.Producer, 0⟩ s₁ = 0 ∧
      Channel.read_flags ⟨ChannelActor.Producer, 0⟩ s₁ = ChannelFlags.Ok ∧
      Channel.read_data_size ⟨ChannelActor.Producer, 0⟩ s₁ = 0 ∧
      Channel.read_channel_size ⟨ChannelActor.Producer, 0⟩ s₁ = 32 ∧
      s₁.trace = zeroMedium.trace ++
        [(0 + channel_size_offset, 0), (0 + producer_seq_offset, 0),
         (0 + consumer_seq_offset, 0), (0 + flags_offset, ChannelFlags.Ok.toU32),
         (0 + data_size_offset, 0), (0 + channel_size_offset, 32)] ∧
      Channel.from_target ChannelActor.Consumer 0 s₁ =
        (s₁, Except.ok ⟨ChannelActor.Consumer, 0⟩) ∧
      Channel.read_channel_size ⟨ChannelActor.Consumer, 0⟩ s₁ = 32 ∧
      Channel.idle ⟨ChannelActor.Consumer, 0⟩ s₁ = true :=
  C5_create_then_attach ChannelActor.Producer ChannelActor.Consumer 0 32 zeroMedium
    (by decide) (by decide) (by norm_num)

end Airfrog

namespace Airfrog

/-! ## Error-path equations and post-consume state -/

theorem publish_bytes_busy_err (c : Channel) (s : Medium) (data : List Nat)
    (ha : c.actor = ChannelActor.Producer)
    (hcap : data.length ≤ Channel.data_capacity c s)
    (hbusy : Channel.idle c s = false) :
    Channel.publish_bytes c s data = (s, Except.error Error.Busy) := by
  unfold Channel.publish_bytes
  rw [ha]
  simp [producer_only, Channel.check_idle, hbusy, Nat.not_lt.mpr hcap]

theorem consume_bytes_nodata (c : Channel) (s : Medium) (buf : List Nat)
    (ha : c.actor = ChannelActor.Consumer)
    (hidle : Channel.idle c s = true) :
    Channel.consume_bytes c s buf = (s, Except.error Error.NoData) := by
  unfold Channel.consume_bytes
  rw [ha]
  simp [consumer_only, Channel.check_busy, hidle]

theorem read_producer_seq_set (c : Channel) (s : Medium) :
    Channel.read_producer_seq c (Channel.set_consumer_seq_to_producer c s) =
      Channel.read_producer_seq c s := by
  unfold Channel.read_producer_seq
  exact read_set_consumer_seq_ne _ _ _ (off_ne (by decide))

theorem idle_after_set (c : Channel) (s : Medium) :
    Channel.idle c (Channel.set_consumer_seq_to_producer c s) = true := by
  unfold Channel.idle
  rw [read_producer_seq_set, read_consumer_seq_set]
  simp

theorem data_capacity_lt (c : Channel) (s : Medium) :
    Channel.data_capacity c s < 2 ^ 32 := by
  have := read_u32_lt s (c.base_addr + channel_size_offset)
  unfold Channel.data_capacity Channel.read_channel_size
  omega

theorem post_publish_data_capacity (c : Channel) (s : Medium) (data : List Nat) :
    Channel.data_capacity c (Channel.inc_producer_seq c (Channel.write_flags c
      (Channel.write_data_size c (Channel.pbWriteData c s data) data.length)
      ChannelFlags.Ok)) = Channel.data_capacity c s := by
  unfold Channel.data_capacity
  rw [post_publish_read_channel_size]

/-! ## C4 -/

/-- C4: busy/idle alternation.  On an idle channel a publish succeeds and
makes the channel busy (sequence numbers differ); a second publish before
any consume fails with `Busy` and changes nothing; a consume on the original
idle channel fails with `NoData`; a consume on the busy channel succeeds,
returns the published length, flips the channel back to idle, and a second
consume then fails with `NoData`. -/
theorem C4_busy_idle_alternation (base : Nat) (s : Medium) (P Q buf : List Nat)
    (hidle : Channel.idle ⟨ChannelActor.Producer, base⟩ s = true)
    (hcapP : P.length ≤ Channel.data_capacity ⟨ChannelActor.Producer, base⟩ s)
    (hcapQ : Q.length ≤ Channel.data_capacity ⟨ChannelActor.Producer, base⟩ s)
    (hbuf : P.length ≤ buf.length) :
    ∃ s₁, Channel.publish_bytes ⟨ChannelActor.Producer, base⟩ s P = (s₁, Except.ok ()) ∧
      Channel.idle ⟨ChannelActor.Producer, base⟩ s₁ = false ∧
      Channel.publish_bytes ⟨ChannelActor.Producer, base⟩ s₁ Q =
        (s₁, Except.error Error.Busy) ∧
      Channel.consume_bytes ⟨ChannelActor.Consumer, base⟩ s buf =
        (s, Except.error Error.NoData) ∧
      ∃ s₂ out,
        Channel.consume_bytes ⟨ChannelActor.Consumer, base⟩ s₁ buf =
          (s₂, Except.ok (out, P.length)) ∧
        Channel.idle ⟨ChannelActor.Consumer, base⟩ s₂ = true ∧
        Channel.consume_bytes ⟨ChannelActor.Consumer, base⟩ s₂ buf =
          (s₂, Except.error Error.NoData) := by
  have hP32 : P.length < 2 ^ 32 := by
    have := data_capacity_lt (⟨ChannelActor.Producer, base⟩ : Channel) s
    omega
  have hbusy1 : Channel.idle (⟨ChannelActor.Producer, base⟩ : Channel)
      (Channel.inc_producer_seq ⟨ChannelActor.Producer, base⟩
        (Channel.write_flags ⟨ChannelActor.Producer, base⟩
          (Channel.write_data_size ⟨ChannelActor.Producer, base⟩
            (Channel.pbWriteData ⟨ChannelActor.Producer, base⟩ s P) P.length)
          ChannelFlags.Ok)) = false :=
    post_publish_idle_false ⟨ChannelActor.Producer, base⟩ s P hidle
  have hds1 : Channel.read_data_size (⟨ChannelActor.Consumer, base⟩ : Channel)
      (Channel.inc_producer_seq ⟨ChannelActor.Producer, base⟩
        (Channel.write_flags ⟨ChannelActor.Producer, base⟩
          (Channel.write_data_size ⟨ChannelActor.Producer, base⟩
            (Channel.pbWriteData ⟨ChannelActor.Producer, base⟩ s P) P.length)
          ChannelFlags.Ok)) = P.length := by
    have h := post_publish_read_data_size ⟨ChannelActor.Producer, base⟩ s P
    have h2 : P.length % 2 ^ 32 = P.length := Nat.mod_eq_of_lt hP32
    exact h.trans h2
  have hcap1 : Channel.data_capacity (⟨ChannelActor.Consumer, base⟩ : Channel)
      (Channel.inc_producer_seq ⟨ChannelActor.Producer, base⟩
        (Channel.write_flags ⟨ChannelActor.Producer, base⟩
          (Channel.write_data_size ⟨ChannelActor.Producer, base⟩
            (Channel.pbWriteData ⟨ChannelActor.Producer, base⟩ s P) P.length)
          ChannelFlags.Ok)) = Channel.data_capacity ⟨ChannelActor.Producer, base⟩ s :=
    post_publish_data_capacity ⟨ChannelActor.Producer, base⟩ s P
  refine ⟨_, publish_bytes_ok_eq ⟨ChannelActor.Producer, base⟩ s P rfl hcapP hidle,
    hbusy1, ?_, consume_bytes_nodata ⟨ChannelActor.Consumer, base⟩ s buf rfl hidle, ?_⟩
  · exact publish_bytes_busy_err ⟨ChannelActor.Producer, base⟩ _ Q rfl
      (by rw [show Channel.data_capacity (⟨ChannelActor.Producer, base⟩ : Channel) _ =
          Channel.data_capacity ⟨ChannelActor.Producer, base⟩ s from
          post_publish_data_capacity ⟨ChannelActor.Producer, base⟩ s P]; exact hcapQ)
      hbusy1
  · have h := consume_bytes_ok_eq ⟨ChannelActor.Consumer, base⟩
      (Channel.inc_producer_seq ⟨ChannelActor.Producer, base⟩
        (Channel.write_flags ⟨ChannelActor.Producer, base⟩
          (Channel.write_data_size ⟨ChannelActor.Producer, base⟩
            (Channel.pbWriteData ⟨ChannelActor.Producer, base⟩ s P) P.length)
          ChannelFlags.Ok)) buf rfl hbusy1 (by rw [hds1]; exact hbuf)
      (by rw [hds1, hcap1]; exact hcapP)
    exact ⟨_, _, by rw [h, hds1], idle_after_set _ _,
      consume_bytes_nodata _ _ buf rfl (idle_after_set _ _)⟩

/-- C4 witness: a 3-byte payload on an idle 32-byte channel at base 0. -/
theorem C4_busy_idle_alternation_witness :
    ∃ s₁, Channel.publish_bytes ⟨ChannelActor.Producer, 0⟩ idleMedium [1, 2, 3] =
        (s₁, Except.ok ()) ∧
      Channel.idle ⟨ChannelActor.Producer, 0⟩ s₁ = false ∧
      Channel.publish_bytes ⟨ChannelActor.Producer, 0⟩ s₁ [9] =
        (s₁, Except.error Error.Busy) ∧
      Channel.consume_bytes ⟨ChannelActor.Consumer, 0⟩ idleMedium [0, 0, 0] =
        (idleMedium, Except.error Error.NoData) ∧
      ∃ s₂ out,
        Channel.consume_bytes ⟨ChannelActor.Consumer, 0⟩ s₁ [0, 0, 0] =
          (s₂, Except.ok (out, 3)) ∧
        Channel.idle ⟨ChannelActor.Consumer, 0⟩ s₂ = true ∧
        Channel.consume_bytes ⟨ChannelActor.Consumer, 0⟩ s₂ [0, 0, 0] =
          (s₂, Except.error Error.NoData) := by
  have h := C4_busy_idle_alternation 0 idleMedium [1, 2, 3] [9] [0, 0, 0]
    (by decide) (by decide) (by decide) (by decide)
  simpa using h

end Airfrog

namespace Airfrog

/-- An idle 32-byte channel at base 0 with both sequence numbers at the
maximum `u32` value `0xFFFFFFFF`, about to wrap. -/
def wrapMedium : Medium :=
  ⟨fun a => if a = 0 then 32 else if a = 4 then 4294967295
    else if a = 8 then 4294967295 else 0, []⟩

/-! ## C7 -/

/-- C7: sequence wraparound is harmless.  With `producer_seq` and
`consumer_seq` both `0xFFFFFFFF` (an idle channel), a publish succeeds, sets
`producer_seq` to 0 by wrapping, and the channel is detected busy (the
sequence numbers merely differ); a consume then succeeds and the channel is
again detected idle — only equality of the two numbers is ever tested. -/
theorem C7_wraparound_harmless (base : Nat) (s : Medium) (P buf : List Nat)
    (hp : Channel.read_producer_seq ⟨ChannelActor.Producer, base⟩ s = 2 ^ 32 - 1)
    (hc : Channel.read_consumer_seq ⟨ChannelActor.Producer, base⟩ s = 2 ^ 32 - 1)
    (hcap : P.length ≤ Channel.data_capacity ⟨ChannelActor.Producer, base⟩ s)
    (hbuf : P.length ≤ buf.length) :
    ∃ s₁, Channel.publish_bytes ⟨ChannelActor.Producer, base⟩ s P = (s₁, Except.ok ()) ∧
      Channel.read_producer_seq ⟨ChannelActor.Producer, base⟩ s₁ = 0 ∧
      Channel.idle ⟨ChannelActor.Producer, base⟩ s₁ = false ∧
      ∃ s₂ out,
        Channel.consume_bytes ⟨ChannelActor.Consumer, base⟩ s₁ buf =
          (s₂, Except.ok (out, P.length)) ∧
        Channel.idle ⟨ChannelActor.Consumer, base⟩ s₂ = true := by
  have hidle : Channel.idle (⟨ChannelActor.Producer, base⟩ : Channel) s = true := by
    unfold Channel.idle
    rw [hp, hc]
    simp
  have hP32 : P.length < 2 ^ 32 := by
    have := data_capacity_lt (⟨ChannelActor.Producer, base⟩ : Channel) s
    omega
  have hbusy1 : Channel.idle (⟨ChannelActor.Producer, base⟩ : Channel)
      (Channel.inc_producer_seq ⟨ChannelActor.Producer, base⟩
        (Channel.write_flags ⟨ChannelActor.Producer, base⟩
          (Channel.write_data_size ⟨ChannelActor.Producer, base⟩
            (Channel.pbWriteData ⟨ChannelActor.Producer, base⟩ s P) P.length)
          ChannelFlags.Ok)) = false :=
    post_publish_idle_false ⟨ChannelActor.Producer, base⟩ s P hidle
  have hds1 : Channel.read_data_size (⟨ChannelActor.Consumer, base⟩ : Channel)
      (Channel.inc_producer_seq ⟨ChannelActor.Producer, base⟩
        (Channel.write_flags ⟨ChannelActor.Producer, base⟩
          (Channel.write_data_size ⟨ChannelActor.Producer, base⟩
            (Channel.pbWriteData ⟨ChannelActor.Producer, base⟩ s P) P.length)
          ChannelFlags.Ok)) = P.length :=
    (post_publish_read_data_size ⟨ChannelActor.Producer, base⟩ s P).trans
      (Nat.mod_eq_of_lt hP32)
  have hcap1 : Channel.data_capacity (⟨ChannelActor.Consumer, base⟩ : Channel)
      (Channel.inc_producer_seq ⟨ChannelActor.Producer, base⟩
        (Channel.write_flags ⟨ChannelActor.Producer, base⟩
          (Channel.write_data_size ⟨ChannelActor.Producer, base⟩
            (Channel.pbWriteData ⟨ChannelActor.Producer, base⟩ s P) P.length)
          ChannelFlags.Ok)) = Channel.data_capacity ⟨ChannelActor.Producer, base⟩ s :=
    post_publish_data_capacity ⟨ChannelActor.Producer, base⟩ s P
  refine ⟨_, publish_bytes_ok_eq ⟨ChannelActor.Producer, base⟩ s P rfl hcap hidle,
    ?_, hbusy1, ?_⟩
  · rw [post_publish_read_producer_seq, hp]
    norm_num
  · have h := consume_bytes_ok_eq ⟨ChannelActor.Consumer, base⟩
      (Channel.inc_producer_seq ⟨ChannelActor.Producer, base⟩
        (Channel.write_flags ⟨ChannelActor.Producer, base⟩
          (Channel.write_data_size ⟨ChannelActor.Producer, base⟩
            (Channel.pbWriteData ⟨ChannelActor.Producer, base⟩ s P) P.length)
          ChannelFlags.Ok)) buf rfl hbusy1 (by rw [hds1]; exact hbuf)
      (by rw [hds1, hcap1]; exact hcap)
    exact ⟨_, _, by rw [h, hds1], idle_after_set _ _⟩

/-- C7 witness: both sequence numbers at `0xFFFFFFFF`, publishing one byte. -/
theorem C7_wraparound_harmless_witness :
    ∃ s₁, Channel.publish_bytes ⟨ChannelActor.Producer, 0⟩ wrapMedium [7] =
        (s₁, Except.ok ()) ∧
      Channel.read_producer_seq ⟨ChannelActor.Producer, 0⟩ s₁ = 0 ∧
      Channel.idle ⟨ChannelActor.Producer, 0⟩ s₁ = false ∧
      ∃ s₂ out,
        Channel.consume_bytes ⟨ChannelActor.Consumer, 0⟩ s₁ [0] =
          (s₂, Except.ok (out, 1)) ∧
        Channel.idle ⟨ChannelActor.Consumer, 0⟩ s₂ = true := by
  have h := C7_wraparound_harmless 0 wrapMedium [7] [0]
    (by decide) (by decide) (by decide) (by decide)
  simpa using h

end Airfrog

namespace Airfrog

/-! ## C8: word publish and byte publish of the same logical payload -/

/-- Little-endian byte expansion of a word payload: the byte sequence whose
`publish_bytes` encoding the claim compares with `publish_data` of the words
(4 bytes per word, least significant first). -/
def wordsToLeBytes : List Nat → List Nat
  | [] => []
  | w :: ws => wordToLeBytes w ++ wordsToLeBytes ws

theorem wordsToLeBytes_length (words : List Nat) :
    (wordsToLeBytes words).length = words.length * 4 := by
  induction words with
  | nil => rfl
  | cons w ws ih => simp [wordsToLeBytes, wordToLeBytes, ih]; omega

theorem wordsToLeBytes_getD (words : List Nat) :
    ∀ (j k : Nat), j < words.length → k < 4 →
      (wordsToLeBytes words).getD (j * 4 + k) 0 =
        (wordToLeBytes (words.getD j 0)).getD k 0 := by
  induction words with
  | nil => intro j k hj _; simp at hj
  | cons w ws ih =>
    intro j k hj hk
    cases j with
    | zero =>
      simp only [wordsToLeBytes, List.getD_cons_zero, Nat.zero_mul, Nat.zero_add]
      exact List.getD_append _ _ _ _ (by simp [wordToLeBytes]; omega)
    | succ j =>
      have hlen : (wordToLeBytes w).length = 4 := by simp [wordToLeBytes]
      have hidx : (j + 1) * 4 + k = (wordToLeBytes w).length + (j * 4 + k) := by
        rw [hlen]; omega
      simp only [wordsToLeBytes, List.getD_cons_succ]
      rw [hidx, List.getD_append_right _ _ _ _ (by omega)]
      rw [Nat.add_sub_cancel_left]
      exact ih j k (by simpa using hj) hk

theorem write_u32_congr (s : Medium) (a v₁ v₂ : Nat) (h : v₁ % 2 ^ 32 = v₂ % 2 ^ 32) :
    write_u32 s a v₁ = write_u32 s a v₂ := by
  unfold write_u32
  simp only [h]

theorem pbWriteData_words (c : Channel) (s : Medium) (words : List Nat) :
    Channel.pbWriteData c s (wordsToLeBytes words) =
      write_bulk s (Channel.data_start_addr c) words := by
  simp only [Channel.pbWriteData, wordsToLeBytes_length]
  rw [Nat.mul_div_cancel _ (by norm_num : (0 : Nat) < 4)]
  rw [if_neg (by simp)]
  rw [write_bulk_eq_foldl]
  apply List.foldl_ext
  intro s' j hj
  have hjlen : j < words.length := by simpa using hj
  apply write_u32_congr
  have e0 : (wordsToLeBytes words).getD (j * 4) 0 =
      (wordToLeBytes (words.getD j 0)).getD 0 0 := by
    have := wordsToLeBytes_getD words j 0 hjlen (by omega)
    simpa using this
  have e1 := wordsToLeBytes_getD words j 1 hjlen (by omega)
  have e2 := wordsToLeBytes_getD words j 2 hjlen (by omega)
  have e3 := wordsToLeBytes_getD words j 3 hjlen (by omega)
  rw [e0, e1, e2, e3]
  have hpack : u32_from_le_bytes ((wordToLeBytes (words.getD j 0)).getD 0 0)
      ((wordToLeBytes (words.getD j 0)).getD 1 0)
      ((wordToLeBytes (words.getD j 0)).getD 2 0)
      ((wordToLeBytes (words.getD j 0)).getD 3 0) = words.getD j 0 % 2 ^ 32 := by
    simp only [wordToLeBytes, List.getD_cons_zero, List.getD_cons_succ]
    exact pack_wordToLeBytes (words.getD j 0)
  rw [hpack]
  omega

/-- C8: publishing a word payload with `publish_data` and publishing its
little-endian byte expansion with `publish_bytes` are indistinguishable on
the wire: from any starting medium the two calls return the same result —
identical payload words in the data region, identical control block, an
identical write trace, and the same error on every failure path. -/
theorem C8_word_byte_publish_equiv (c : Channel) (s : Medium) (words : List Nat) :
    Channel.publish_data c s words = Channel.publish_bytes c s (wordsToLeBytes words) := by
  unfold Channel.publish_data Channel.publish_bytes
  cases hpo : producer_only c.actor with
  | error e => rfl
  | ok u =>
    simp only [wordsToLeBytes_length]
    by_cases hcap : words.length * 4 > Channel.data_capacity c s
    · rw [if_pos hcap, if_pos hcap]
    · rw [if_neg hcap, if_neg hcap]
      cases hci : Channel.check_idle c s with
      | error e => rfl
      | ok v => rw [pbWriteData_words]

end Airfrog

namespace Airfrog

/-! ## Trace lemmas for the publish write sequence -/

theorem write_bulk_trace (data : List Nat) (s : Medium) (addr : Nat) :
    (write_bulk s addr data).trace =
      s.trace ++ (List.range data.length).map
        (fun j => (addr + j * 4, data.getD j 0 % 2 ^ 32)) := by
  rw [write_bulk_eq_foldl]
  exact foldl_write_trace addr _ data.length s

theorem write_bulk_read_lt (data : List Nat) (s : Medium) (addr x : Nat) (hx : x < addr) :
    read_u32 (write_bulk s addr data) x = read_u32 s x := by
  rw [write_bulk_eq_foldl]
  exact foldl_write_read_notin _ x _ _ s fun j hj => by omega

theorem pre_inc_read_producer_seq_bytes (c : Channel) (s : Medium) (data : List Nat)
    (L' : Nat) :
    Channel.read_producer_seq c (Channel.write_flags c
      (Channel.write_data_size c (Channel.pbWriteData c s data) L') ChannelFlags.Ok) =
      Channel.read_producer_seq c s := by
  unfold Channel.read_producer_seq
  rw [read_write_flags_ne _ _ _ _ (off_ne (by decide)),
    read_write_data_size_ne _ _ _ _ (off_ne (by decide)),
    pbWriteData_read_notdata _ _ _ _
      (by unfold Channel.data_start_addr; simp [producer_seq_offset, data_offset])]

theorem pre_inc_read_producer_seq_words (c : Channel) (s : Medium) (data : List Nat)
    (L' : Nat) :
    Channel.read_producer_seq c (Channel.write_flags c
      (Channel.write_data_size c (write_bulk s (Channel.data_start_addr c) data) L')
      ChannelFlags.Ok) = Channel.read_producer_seq c s := by
  unfold Channel.read_producer_seq
  rw [read_write_flags_ne _ _ _ _ (off_ne (by decide)),
    read_write_data_size_ne _ _ _ _ (off_ne (by decide)),
    write_bulk_read_lt _ _ _ _
      (by unfold Channel.data_start_addr; simp [producer_seq_offset, data_offset])]

theorem post_writes_trace (c : Channel) (sd : Medium) (L pv : Nat)
    (hpv : Channel.read_producer_seq c (Channel.write_flags c
      (Channel.write_data_size c sd L) ChannelFlags.Ok) = pv) :
    (Channel.inc_producer_seq c (Channel.write_flags c
      (Channel.write_data_size c sd L) ChannelFlags.Ok)).trace =
      sd.trace ++
        [(c.base_addr + data_size_offset, L % 2 ^ 32),
         (c.base_addr + flags_offset, ChannelFlags.Ok.toU32),
         (c.base_addr + producer_seq_offset, (pv + 1) % 2 ^ 32)] := by
  unfold Channel.inc_producer_seq
  rw [hpv]
  unfold Channel.write_producer_seq Channel.write_flags Channel.write_data_size
  rw [write_u32_trace, write_u32_trace, write_u32_trace]
  simp [ChannelFlags.toU32, Nat.mod_mod_of_dvd]

/-! ## C6 -/

/-- C6: in every successful publish (`publish_bytes` and `publish_data`) the
writes to the medium happen in exactly this order: all payload writes (each
at an address inside the data region) first, then `data_size`, then
`flags = Ok`, and the wrapping increment of `producer_seq` is the very last
write of the sequence — stated as an exact equation on the write trace. -/
theorem C6_publish_write_order (c : Channel) (s : Medium) (bytes words : List Nat)
    (ha : c.actor = ChannelActor.Producer)
    (hcapb : bytes.length ≤ Channel.data_capacity c s)
    (hcapw : words.length * 4 ≤ Channel.data_capacity c s)
    (hidle : Channel.idle c s = true) :
    (∃ pw, ((Channel.publish_bytes c s bytes).1).trace =
        s.trace ++ pw ++
          [(c.base_addr + data_size_offset, bytes.length % 2 ^ 32),
           (c.base_addr + flags_offset, ChannelFlags.Ok.toU32),
           (c.base_addr + producer_seq_offset,
             (Channel.read_producer_seq c s + 1) % 2 ^ 32)] ∧
        ∀ e ∈ pw, Channel.data_start_addr c ≤ e.1 ∧
          e.1 < Channel.data_start_addr c + Channel.data_capacity c s) ∧
    (∃ pw, ((Channel.publish_data c s words).1).trace =
        s.trace ++ pw ++
          [(c.base_addr + data_size_offset, words.length * 4 % 2 ^ 32),
           (c.base_addr + flags_offset, ChannelFlags.Ok.toU32),
           (c.base_addr + producer_seq_offset,
             (Channel.read_producer_seq c s + 1) % 2 ^ 32)] ∧
        ∀ e ∈ pw, Channel.data_start_addr c ≤ e.1 ∧
          e.1 < Channel.data_start_addr c + Channel.data_capacity c s) := by
  constructor
  · rw [publish_bytes_ok_eq c s bytes ha hcapb hidle]
    refine ⟨((List.range (bytes.length / 4)).map fun j =>
        (Channel.data_start_addr c + j * 4,
          u32_from_le_bytes (bytes.getD (j * 4) 0) (bytes.getD (j * 4 + 1) 0)
            (bytes.getD (j * 4 + 2) 0) (bytes.getD (j * 4 + 3) 0) % 2 ^ 32)) ++
        (if bytes.length % 4 > 0 then
          [(Channel.data_start_addr c + bytes.length / 4 * 4,
            ((List.range (bytes.length % 4)).foldl
              (fun final_word i =>
                final_word ||| bytes.getD (bytes.length / 4 * 4 + i) 0 <<< (i * 8)) 0)
              % 2 ^ 32)]
        else []), ?_, ?_⟩
    · rw [post_writes_trace c _ bytes.length (Channel.read_producer_seq c s)
        (pre_inc_read_producer_seq_bytes c s bytes bytes.length)]
      rw [pbWriteData_trace]
      simp [List.append_assoc]
    · intro e he
      rcases List.mem_append.mp he with hmap | hrem
      · rcases List.mem_map.mp hmap with ⟨j, hjmem, rfl⟩
        have hj : j < bytes.length / 4 := List.mem_range.mp hjmem
        constructor
        · omega
        · have : j * 4 < bytes.length := by omega
          omega
      · by_cases hrempos : bytes.length % 4 > 0
        · rw [if_pos hrempos] at hrem
          rcases List.mem_singleton.mp hrem with rfl
          constructor
          · omega
          · have : bytes.length / 4 * 4 < bytes.length := by omega
            omega
        · rw [if_neg hrempos] at hrem
          simp at hrem
  · rw [publish_data_ok_eq c s words ha hcapw hidle]
    refine ⟨(List.range words.length).map
        (fun j => (Channel.data_start_addr c + j * 4, words.getD j 0 % 2 ^ 32)), ?_, ?_⟩
    · rw [post_writes_trace c _ (words.length * 4) (Channel.read_producer_seq c s)
        (pre_inc_read_producer_seq_words c s words (words.length * 4))]
      rw [write_bulk_trace]
    · intro e he
      rcases List.mem_map.mp he with ⟨j, hjmem, rfl⟩
      have hj : j < words.length := List.mem_range.mp hjmem
      constructor
      · omega
      · have : j * 4 + 4 ≤ words.length * 4 := by omega
        omega

/-- C6 witness: publishing 5 bytes and, separately, 2 words on an idle
32-byte channel at base 0. -/
theorem C6_publish_write_order_witness :
    (∃ pw, ((Channel.publish_bytes ⟨ChannelActor.Producer, 0⟩ idleMedium
        [1, 2, 3, 4, 5]).1).trace =
        idleMedium.trace ++ pw ++
          [(0 + data_size_offset, 5 % 2 ^ 32),
           (0 + flags_offset, ChannelFlags.Ok.toU32),
           (0 + producer_seq_offset,
             (Channel.read_producer_seq ⟨ChannelActor.Producer, 0⟩ idleMedium + 1) % 2 ^ 32)] ∧
        ∀ e ∈ pw, Channel.data_start_addr ⟨ChannelActor.Producer, 0⟩ ≤ e.1 ∧
          e.1 < Channel.data_start_addr ⟨ChannelActor.Producer, 0⟩ +
            Channel.data_capacity ⟨ChannelActor.Producer, 0⟩ idleMedium) ∧
    (∃ pw, ((Channel.publish_data ⟨ChannelActor.Producer, 0⟩ idleMedium
        [67305985, 134678021]).1).trace =
        idleMedium.trace ++ pw ++
          [(0 + data_size_offset, 2 * 4 % 2 ^ 32),
           (0 + flags_offset, ChannelFlags.Ok.toU32),
           (0 + producer_seq_offset,
             (Channel.read_producer_seq ⟨ChannelActor.Producer, 0⟩ idleMedium + 1) % 2 ^ 32)] ∧
        ∀ e ∈ pw, Channel.data_start_addr ⟨ChannelActor.Producer, 0⟩ ≤ e.1 ∧
          e.1 < Channel.data_start_addr ⟨ChannelActor.Producer, 0⟩ +
            Channel.data_capacity ⟨ChannelActor.Producer, 0⟩ idleMedium) := by
  have h := C6_publish_write_order ⟨ChannelActor.Producer, 0⟩ idleMedium
    [1, 2, 3, 4, 5] [67305985, 134678021] rfl (by decide) (by decide) (by decide)
  simpa using h

end Airfrog

namespace Airfrog

/-! ## Value of the OR-packed trailing word -/

theorem or1_byte (b0 : Nat) : 0 ||| b0 <<< (0 * 8) = b0 := by
  rw [lor_shift_eq_add 0 b0 (0 * 8) (by norm_num)]
  norm_num

theorem or2_bytes (b0 b1 : Nat) (h0 : b0 < 256) :
    (0 ||| b0 <<< (0 * 8)) ||| b1 <<< (1 * 8) = b0 + b1 * 256 := by
  rw [or1_byte, lor_shift_eq_add b0 b1 (1 * 8) (by norm_num; omega)]
  norm_num

theorem or3_bytes (b0 b1 b2 : Nat) (h0 : b0 < 256) (h1 : b1 < 256) :
    ((0 ||| b0 <<< (0 * 8)) ||| b1 <<< (1 * 8)) ||| b2 <<< (2 * 8) =
      b0 + b1 * 256 + b2 * 65536 := by
  rw [or2_bytes b0 b1 h0, lor_shift_eq_add _ b2 (2 * 8) (by norm_num; omega)]
  norm_num

theorem getD_take (l : List Nat) (n k : Nat) (hk : k < n) :
    (l.take n).getD k 0 = l.getD k 0 := by
  simp [List.getD_eq_getElem?_getD, List.getElem?_take_of_lt hk]

theorem getD_lt_of_mem (l : List Nat) (hb : ∀ b ∈ l, b < 256) :
    ∀ n, n < l.length → l.getD n 0 < 256 := by
  intro n hn
  have h1 : l.getD n 0 = l[n] := by
    simp [List.getD_eq_getElem?_getD, List.getElem?_eq_getElem hn]
  rw [h1]
  exact hb _ (List.getElem_mem hn)

theorem orfold_remword_getD (data : List Nat) (off r k : Nat) (hr1 : 1 ≤ r) (hr3 : r ≤ 3)
    (hb : ∀ i, i < r → data.getD (off + i) 0 < 256) (hk : k < r) :
    (wordToLeBytes (((List.range r).foldl
      (fun final_word i => final_word ||| data.getD (off + i) 0 <<< (i * 8)) 0)
      % 2 ^ 32)).getD k 0 = data.getD (off + k) 0 := by
  interval_cases r
  · have h0 := hb 0 (by omega)
    simp only [show List.range 1 = [0] from rfl, List.foldl_cons, List.foldl_nil]
    rw [or1_byte]
    interval_cases k
    simp only [wordToLeBytes, List.getD_cons_zero]
    omega
  · have h0 := hb 0 (by omega)
    have h1 := hb 1 (by omega)
    simp only [show List.range 2 = [0, 1] from rfl, List.foldl_cons, List.foldl_nil]
    rw [or2_bytes _ _ h0]
    rw [Nat.mod_eq_of_lt (by omega)]
    interval_cases k
    · simp only [wordToLeBytes, List.getD_cons_zero]
      omega
    · simp only [wordToLeBytes, List.getD_cons_succ, List.getD_cons_zero]
      omega
  · have h0 := hb 0 (by omega)
    have h1 := hb 1 (by omega)
    have h2 := hb 2 (by omega)
    simp only [show List.range 3 = [0, 1, 2] from rfl, List.foldl_cons, List.foldl_nil]
    rw [or3_bytes _ _ _ h0 h1]
    rw [Nat.mod_eq_of_lt (by omega)]
    interval_cases k
    · simp only [wordToLeBytes, List.getD_cons_zero]
      omega
    · simp only [wordToLeBytes, List.getD_cons_succ, List.getD_cons_zero]
      omega
    · simp only [wordToLeBytes, List.getD_cons_succ, List.getD_cons_zero]
      omega

/-! ## Characterisation of the consume-side buffer fill -/

theorem cbFillBuf_length (c : Channel) (s : Medium) (buf : List Nat) (ds : Nat) :
    (Channel.cbFillBuf c s buf ds).length = buf.length := by
  simp only [Channel.cbFillBuf]
  by_cases hrem : ds % 4 > 0
  · rw [if_pos hrem, listWrite_length,
      foldl_listWrite_length (fun j => wordToLeBytes (read_u32 s (Channel.data_start_addr c + j * 4)))]
  · rw [if_neg hrem,
      foldl_listWrite_length (fun j => wordToLeBytes (read_u32 s (Channel.data_start_addr c + j * 4)))]

theorem cbFillBuf_getD_lo (c : Channel) (s : Medium) (buf : List Nat) (ds i : Nat)
    (hi : i < ds / 4 * 4) (hbuf : ds ≤ buf.length) :
    (Channel.cbFillBuf c s buf ds).getD i 0 =
      (wordToLeBytes (read_u32 s (Channel.data_start_addr c + i / 4 * 4))).getD (i % 4) 0 := by
  simp only [Channel.cbFillBuf]
  by_cases hrem : ds % 4 > 0
  · rw [if_pos hrem, listWrite_getD_lt _ _ _ _ (by omega)]
    exact foldl_listWrite_getD_lo _ (fun j => by simp [wordToLeBytes]) _ buf i hi (by omega)
  · rw [if_neg hrem]
    exact foldl_listWrite_getD_lo _ (fun j => by simp [wordToLeBytes]) _ buf i hi (by omega)

theorem cbFillBuf_getD_rem (c : Channel) (s : Medium) (buf : List Nat) (ds i : Nat)
    (h1 : ds / 4 * 4 ≤ i) (h2 : i < ds) (hbuf : ds ≤ buf.length) :
    (Channel.cbFillBuf c s buf ds).getD i 0 =
      ((wordToLeBytes (read_u32 s (Channel.data_start_addr c + ds / 4 * 4))).take
        (ds % 4)).getD (i - ds / 4 * 4) 0 := by
  have hrem : ds % 4 > 0 := by omega
  simp only [Channel.cbFillBuf]
  rw [if_pos hrem]
  rw [listWrite_getD_in _ _ _ _ h1 (by simp [wordToLeBytes]; omega)
    (by rw [foldl_listWrite_length
      (fun j => wordToLeBytes (read_u32 s (Channel.data_start_addr c + j * 4)))]; omega)]

theorem cbFillBuf_getD_ge (c : Channel) (s : Medium) (buf : List Nat) (ds i : Nat)
    (hi : ds ≤ i) :
    (Channel.cbFillBuf c s buf ds).getD i 0 = buf.getD i 0 := by
  simp only [Channel.cbFillBuf]
  by_cases hrem : ds % 4 > 0
  · rw [if_pos hrem, listWrite_getD_ge _ _ _ _ (by simp [wordToLeBytes]; omega)]
    exact foldl_listWrite_getD_hi _ (fun j => by simp [wordToLeBytes]) _ buf i (by omega)
  · rw [if_neg hrem]
    exact foldl_listWrite_getD_hi _ (fun j => by simp [wordToLeBytes]) _ buf i (by omega)

end Airfrog

namespace Airfrog

theorem getElem_eq_getD (l : List Nat) (i : Nat) (h : i < l.length) : l[i] = l.getD i 0 := by
  simp [List.getD_eq_getElem?_getD, List.getElem?_eq_getElem h]

/-- Round-trip at the byte level: consuming from the medium left by a byte
publish recovers every payload byte exactly. -/
theorem post_publish_roundtrip_getD (c : Channel) (s : Medium) (P buf : List Nat)
    (hbD : ∀ n, n < P.length → P.getD n 0 < 256)
    (hbuf : P.length ≤ buf.length) (i : Nat) (hi : i < P.length) :
    (Channel.cbFillBuf c (Channel.inc_producer_seq c (Channel.write_flags c
      (Channel.write_data_size c (Channel.pbWriteData c s P) P.length)
      ChannelFlags.Ok)) buf P.length).getD i 0 = P.getD i 0 := by
  by_cases hA : i < P.length / 4 * 4
  · rw [cbFillBuf_getD_lo c _ buf P.length i hA hbuf]
    rw [post_publish_read_dataword c s P _ (Nat.le_add_right _ _)]
    rw [pbWriteData_read_word c s P (i / 4) (by omega)]
    rw [wordToLeBytes_pack _ _ _ _ (hbD _ (by omega)) (hbD _ (by omega)) (hbD _ (by omega))
      (hbD _ (by omega))]
    have h03 : i % 4 = 0 ∨ i % 4 = 1 ∨ i % 4 = 2 ∨ i % 4 = 3 := by omega
    rcases h03 with h | h | h | h
    · rw [h]
      simp only [List.getD_cons_zero]
      rw [show i / 4 * 4 = i by omega]
    · rw [h]
      simp only [List.getD_cons_succ, List.getD_cons_zero]
      rw [show i / 4 * 4 + 1 = i by omega]
    · rw [h]
      simp only [List.getD_cons_succ, List.getD_cons_zero]
      rw [show i / 4 * 4 + 2 = i by omega]
    · rw [h]
      simp only [List.getD_cons_succ, List.getD_cons_zero]
      rw [show i / 4 * 4 + 3 = i by omega]
  · have h1 : P.length / 4 * 4 ≤ i := by omega
    rw [cbFillBuf_getD_rem c _ buf P.length i h1 hi hbuf]
    rw [post_publish_read_dataword c s P _ (Nat.le_add_right _ _)]
    rw [pbWriteData_read_rem c s P (by omega)]
    rw [getD_take _ _ _ (by omega)]
    rw [orfold_remword_getD P (P.length / 4 * 4) (P.length % 4) (i - P.length / 4 * 4)
      (by omega) (by omega) (fun j hj => hbD _ (by omega)) (by omega)]
    rw [show P.length / 4 * 4 + (i - P.length / 4 * 4) = i by omega]

end Airfrog

namespace Airfrog

theorem getD_drop : ∀ (n : Nat) (l : List Nat) (k : Nat),
    (l.drop n).getD k 0 = l.getD (n + k) 0 := by
  intro n
  induction n with
  | zero => intro l k; simp
  | succ n ih =>
    intro l k
    cases l with
    | nil => simp
    | cons x xs =>
      rw [List.drop_succ_cons, ih]
      simp [Nat.succ_add]

/-! ## C2 -/

/-- C2: round trip.  For any byte payload P fitting the capacity, publishing
it with a Producer-role handle on an idle channel succeeds, and a subsequent
Consumer-role `consume_bytes` into a buffer of length at least `P.length`
returns `P.length`, fills exactly the first `P.length` bytes of the buffer
with P, and leaves the rest of the buffer untouched (the padding in a
trailing partial word is never copied out).  The payload length is
universally quantified, covering 0, 1, 3, 4, 5, capacity-1 and capacity. -/
theorem C2_publish_consume_roundtrip (base : Nat) (s : Medium) (P buf : List Nat)
    (hbytes : ∀ b ∈ P, b < 256)
    (hidle : Channel.idle ⟨ChannelActor.Producer, base⟩ s = true)
    (hcap : P.length ≤ Channel.data_capacity ⟨ChannelActor.Producer, base⟩ s)
    (hbuf : P.length ≤ buf.length) :
    ∃ s₁, Channel.publish_bytes ⟨ChannelActor.Producer, base⟩ s P =
        (s₁, Except.ok ()) ∧
      ∃ s₂ out,
        Channel.consume_bytes ⟨ChannelActor.Consumer, base⟩ s₁ buf =
          (s₂, Except.ok (out, P.length)) ∧
        out.take P.length = P ∧ out.drop P.length = buf.drop P.length := by
  have hbD := getD_lt_of_mem P hbytes
  have hP32 : P.length < 2 ^ 32 := by
    have := data_capacity_lt (⟨ChannelActor.Producer, base⟩ : Channel) s
    omega
  have hbusy1 : Channel.idle (⟨ChannelActor.Producer, base⟩ : Channel)
      (Channel.inc_producer_seq ⟨ChannelActor.Producer, base⟩
        (Channel.write_flags ⟨ChannelActor.Producer, base⟩
          (Channel.write_data_size ⟨ChannelActor.Producer, base⟩
            (Channel.pbWriteData ⟨ChannelActor.Producer, base⟩ s P) P.length)
          ChannelFlags.Ok)) = false :=
    post_publish_idle_false ⟨ChannelActor.Producer, base⟩ s P hidle
  have hds1 : Channel.read_data_size (⟨ChannelActor.Consumer, base⟩ : Channel)
      (Channel.inc_producer_seq ⟨ChannelActor.Producer, base⟩
        (Channel.write_flags ⟨ChannelActor.Producer, base⟩
          (Channel.write_data_size ⟨ChannelActor.Producer, base⟩
            (Channel.pbWriteData ⟨ChannelActor.Producer, base⟩ s P) P.length)
          ChannelFlags.Ok)) = P.length :=
    (post_publish_read_data_size ⟨ChannelActor.Producer, base⟩ s P).trans
      (Nat.mod_eq_of_lt hP32)
  have hcap1 : Channel.data_capacity (⟨ChannelActor.Consumer, base⟩ : Channel)
      (Channel.inc_producer_seq ⟨ChannelActor.Producer, base⟩
        (Channel.write_flags ⟨ChannelActor.Producer, base⟩
          (Channel.write_data_size ⟨ChannelActor.Producer, base⟩
            (Channel.pbWriteData ⟨ChannelActor.Producer, base⟩ s P) P.length)
          ChannelFlags.Ok)) = Channel.data_capacity ⟨ChannelActor.Producer, base⟩ s :=
    post_publish_data_capacity ⟨ChannelActor.Producer, base⟩ s P
  refine ⟨_, publish_bytes_ok_eq ⟨ChannelActor.Producer, base⟩ s P rfl hcap hidle, ?_⟩
  have h := consume_bytes_ok_eq ⟨ChannelActor.Consumer, base⟩
    (Channel.inc_producer_seq ⟨ChannelActor.Producer, base⟩
      (Channel.write_flags ⟨ChannelActor.Producer, base⟩
        (Channel.write_data_size ⟨ChannelActor.Producer, base⟩
          (Channel.pbWriteData ⟨ChannelActor.Producer, base⟩ s P) P.length)
        ChannelFlags.Ok)) buf rfl hbusy1 (by rw [hds1]; exact hbuf)
    (by rw [hds1, hcap1]; exact hcap)
  rw [h, hds1]
  have hbr : Channel.cbFillBuf ⟨ChannelActor.Consumer, base⟩
      (Channel.inc_producer_seq ⟨ChannelActor.Producer, base⟩
        (Channel.write_flags ⟨ChannelActor.Producer, base⟩
          (Channel.write_data_size ⟨ChannelActor.Producer, base⟩
            (Channel.pbWriteData ⟨ChannelActor.Producer, base⟩ s P) P.length)
          ChannelFlags.Ok)) buf P.length =
      Channel.cbFillBuf ⟨ChannelActor.Producer, base⟩
        (Channel.inc_producer_seq ⟨ChannelActor.Producer, base⟩
          (Channel.write_flags ⟨ChannelActor.Producer, base⟩
            (Channel.write_data_size ⟨ChannelActor.Producer, base⟩
              (Channel.pbWriteData ⟨ChannelActor.Producer, base⟩ s P) P.length)
            ChannelFlags.Ok)) buf P.length := rfl
  rw [hbr]
  refine ⟨_, _, rfl, ?_, ?_⟩
  · apply List.ext_getElem
    · rw [List.length_take, cbFillBuf_length]
      omega
    · intro i h1 h2
      have hiP : i < P.length := h2
      rw [getElem_eq_getD _ _ h1, getElem_eq_getD _ _ h2, getD_take _ _ _ hiP]
      exact post_publish_roundtrip_getD ⟨ChannelActor.Producer, base⟩ s P buf hbD hbuf i hiP
  · apply List.ext_getElem
    · rw [List.length_drop, List.length_drop, cbFillBuf_length]
    · intro i h1 h2
      rw [getElem_eq_getD _ _ h1, getElem_eq_getD _ _ h2, getD_drop, getD_drop]
      exact cbFillBuf_getD_ge _ _ _ _ _ (by omega)

/-- C2 witness: the 5-byte payload [1, 2, 3, 4, 5] (one full word plus a
1-byte trailing group) round-trips through a 32-byte channel into a 6-byte
buffer, leaving the 6th byte untouched. -/
theorem C2_publish_consume_roundtrip_witness :
    ∃ s₁, Channel.publish_bytes ⟨ChannelActor.Producer, 0⟩ idleMedium [1, 2, 3, 4, 5] =
        (s₁, Except.ok ()) ∧
      ∃ s₂ out,
        Channel.consume_bytes ⟨ChannelActor.Consumer, 0⟩ s₁ (List.replicate 6 9) =
          (s₂, Except.ok (out, 5)) ∧
        out.take 5 = [1, 2, 3, 4, 5] ∧ out.drop 5 = (List.replicate 6 9).drop 5 := by
  have h := C2_publish_consume_roundtrip 0 idleMedium [1, 2, 3, 4, 5] (List.replicate 6 9)
    (by decide) (by decide) (by decide) (by decide)
  simpa using h

end Airfrog
